import Mathlib

/-!
# otel2influx: the Telegraf/Prometheus v2 metric writer

A shallow embedding of `src/otel2influx/metrics_telegraf_prometheus_v2.go`.

* Go maps (`map[string]string`, `map[string]interface{}`) are association lists read
  through `GoMap.get?` and written through `GoMap.set`; two maps are the same Go map
  when they agree under `GoMap.get?` on every key.
* `uint64` values are naturals, reduced `% 2 ^ 64` where the code adds them.
* `float64` values are carried as IEEE 754 binary64 bit patterns.
* A `time.Time` is its seconds since January 1 of year 1 and its nanoseconds, as in
  package `time`; "a data point passes the timestamp check" means that
  `dataPoint.Timestamp().AsTime().IsZero()` is false (line 42).
* The sink (`InfluxWriterBatch`) is a decision function over the points handed to it
  so far; every expander threads the list of points handed to `EnqueuePoint` and returns
  it next to the error.
* A loop over data points is a recursion over the list of data points still to do. A
  statement about one data point `dp` is made for `dp :: rest` and any list `handed` of
  points handed to the sink before: the base point of `dp` is then at position
  `handed.length` of the result, its `i`-th bucket or quantile point at position
  `handed.length + 1 + i`.
* `c.logger.Debug` has no effect on any returned value and is left out.
* For the statements about every point of a run, each expander is shown equal to
  `enqueuePoints` on a list of candidate points that does not depend on the sink: the
  sink decides only how long a prefix of the candidates is handed over.
-/

namespace Otel2Influx

/-! ## Go maps -/

/-- A Go map with string keys, as an association list. -/
abbrev GoMap (V : Type) := List (String × V)

/-- Map read `m[k]` (with the comma-ok form folded into the option). -/
def GoMap.get? {V : Type} : GoMap V → String → Option V
  | [], _ => none
  | (k', v) :: t, k => if k' = k then some v else GoMap.get? t k

/-- Map write `m[k] = v`: overwrite the entry of `k` when there is one, add it otherwise. -/
def GoMap.set {V : Type} : GoMap V → String → V → GoMap V
  | [], k, v => [(k, v)]
  | (k', v') :: t, k, v => if k' = k then (k, v) :: t else (k', v') :: GoMap.set t k v

/-- The expression `maps.Clone(m)`, and the copy loops `for k, v := range m { f[k] = v }`
into a fresh map: a map with the same entries. -/
def GoMap.clone {V : Type} (m : GoMap V) : GoMap V := m

/-! ## Scalars -/

/-- The conversion `int64(x)` of a `uint64`. -/
def toInt64 (x : Nat) : Int :=
  if x < 2 ^ 63 then (x : Int) else (x : Int) - 2 ^ 64

/-- A `float64`, as its IEEE 754 binary64 bit pattern. -/
structure Float64 where
  bits : Nat
deriving DecidableEq, Repr

/-- The index of the highest set bit of a non-zero `uint64`. -/
def highestBit (n : Nat) : Nat :=
  (List.range 64).foldl (fun e k => if 2 ^ k ≤ n then k else e) 0

/-- The conversion `float64(n)` of a `uint64`: round to nearest, ties to even. -/
def Float64.ofUInt64 (n : Nat) : Float64 :=
  if n = 0 then ⟨0⟩
  else
    let e := highestBit n
    if e ≤ 52 then ⟨(e + 1023) * 2 ^ 52 + (n * 2 ^ (52 - e) - 2 ^ 52)⟩
    else
      let shift := e - 52
      let q := n / 2 ^ shift
      let r := n % 2 ^ shift
      let half := 2 ^ (shift - 1)
      let q' := if half < r ∨ (r = half ∧ q % 2 = 1) then q + 1 else q
      if q' = 2 ^ 53 then ⟨(e + 1 + 1023) * 2 ^ 52⟩
      else ⟨(e + 1023) * 2 ^ 52 + (q' - 2 ^ 52)⟩

/-- A `time.Time` in UTC without monotonic reading: seconds since January 1, year 1
00:00:00 UTC, and nanoseconds within the second. -/
structure Time where
  sec : Int
  nsec : Int
deriving DecidableEq, Repr

/-- The constant `unixToInternal` of package `time`: seconds from year 1 to 1970. -/
def unixToInternal : Int := (1969 * 365 + 1969 / 4 - 1969 / 100 + 1969 / 400) * 86400

/-- The function `time.Unix(sec, nsec)` (Go integer division truncates toward zero). -/
def Time.Unix (sec nsec : Int) : Time :=
  if nsec < 0 ∨ 1000000000 ≤ nsec then
    let n := Int.tdiv nsec 1000000000
    let sec := sec + n
    let nsec := nsec - n * 1000000000
    if nsec < 0 then ⟨sec - 1 + unixToInternal, nsec + 1000000000⟩
    else ⟨sec + unixToInternal, nsec⟩
  else ⟨sec + unixToInternal, nsec⟩

/-- The method `time.Time.IsZero`: the zero time instant is January 1, year 1. -/
def Time.IsZero (t : Time) : Bool := t.sec == 0 && t.nsec == 0

/-- The method `pcommon.Timestamp.AsTime`: `time.Unix(0, int64(ts)).UTC()`, for a
`Timestamp` that is a `uint64` of nanoseconds since the Unix epoch. -/
def Timestamp.AsTime (ts : Nat) : Time := Time.Unix 0 (toInt64 ts)

/-! ## The pdata object model -/

/-- A `pcommon.Value`; only its string form is used. -/
inductive Value where
  | empty
  | str (s : String)
  | int (i : Int)
  | double (d : Float64)
  | bool (b : Bool)
  | bytes (b : List Nat)
  | slice (vs : List Value)
  | kvlist (kvs : List (String × Value))
deriving Repr

/-- A `pcommon.Map`: an ordered sequence of key/value pairs, walked in order by `Range`. -/
abbrev Attributes := List (String × Value)

/-- A `pcommon.Resource`. -/
structure Resource where
  attributes : Attributes
  droppedAttributesCount : Nat

/-- A `pcommon.InstrumentationScope`. -/
structure InstrumentationScope where
  name : String
  version : String
  attributes : Attributes
  droppedAttributesCount : Nat

/-- The interface `basicDataPoint`: what `initMetricTagsAndTimestamp` reads. -/
structure basicDataPoint where
  Timestamp : Nat
  StartTimestamp : Nat
  Attributes : Attributes

/-- The value of a `pmetric.NumberDataPoint`; `ValueType()` returns one of `Empty`,
`Double` and `Int`, so the `default` branches of the value switches are never taken. -/
inductive NumberValue where
  | Empty
  | Double (v : Float64)
  | Int (v : Int)
deriving DecidableEq, Repr

/-- A `pmetric.NumberDataPoint`. -/
structure NumberDataPoint extends basicDataPoint where
  Value : NumberValue

/-- A `pmetric.HistogramDataPoint`. -/
structure HistogramDataPoint extends basicDataPoint where
  Count : Nat
  Sum : Float64
  HasMin : Bool
  Min : Float64
  HasMax : Bool
  Max : Float64
  BucketCounts : List Nat
  ExplicitBounds : List Float64

/-- A `pmetric.SummaryDataPointValueAtQuantile`. -/
structure ValueAtQuantile where
  Quantile : Float64
  Value : Float64

/-- A `pmetric.SummaryDataPoint`. -/
structure SummaryDataPoint extends basicDataPoint where
  Count : Nat
  Sum : Float64
  QuantileValues : List ValueAtQuantile

/-- The enumeration `pmetric.MetricType`. -/
inductive MetricType where
  | Empty
  | Gauge
  | Sum
  | Histogram
  | ExponentialHistogram
  | Summary
deriving DecidableEq, Repr

/-- The data of a `pmetric.Metric`, by metric type. -/
inductive MetricData where
  | Empty
  | Gauge (dataPoints : List NumberDataPoint)
  | Sum (isMonotonic : Bool) (dataPoints : List NumberDataPoint)
  | Histogram (dataPoints : List HistogramDataPoint)
  | ExponentialHistogram
  | Summary (dataPoints : List SummaryDataPoint)

/-- A `pmetric.Metric` (description and unit are ignored by the writer). -/
structure Metric where
  Name : String
  Data : MetricData

/-- The method `pmetric.Metric.Type`. -/
def Metric.Type (metric : Metric) : MetricType :=
  match metric.Data with
  | .Empty => .Empty
  | .Gauge _ => .Gauge
  | .Sum _ _ => .Sum
  | .Histogram _ => .Histogram
  | .ExponentialHistogram => .ExponentialHistogram
  | .Summary _ => .Summary

/-! ## Output points and the sink -/

/-- The enumeration `common.InfluxMetricValueType`, as far as this writer uses it. -/
inductive InfluxMetricValueType where
  | Gauge
  | Sum
  | Histogram
  | Summary
deriving DecidableEq, Repr

/-- A field value (`interface{}` holding a `float64` or an `int64`). -/
inductive FieldValue where
  | float64 (v : Float64)
  | int64 (v : Int)
deriving DecidableEq, Repr

/-- The arguments of one `EnqueuePoint` call. -/
structure Point where
  measurement : String
  tags : GoMap String
  fields : GoMap FieldValue
  ts : Time
  vType : InfluxMetricValueType
deriving DecidableEq, Repr

/-- The errors the writer returns. -/
inductive Error where
  | noTimestamp
  | unknownMetricType (t : MetricType)
  | invalidBucketCounts (bucketCounts explicitBounds : Nat)
  | failedToWritePoint (what : String) (cause : String)
deriving DecidableEq, Repr

/-- An `InfluxWriterBatch`: from the points handed to it so far and the next point,
the error `EnqueuePoint` returns (`none` for `nil`). -/
abbrev Sink := List Point → Point → Option String

/-- The call `batch.EnqueuePoint(ctx, measurement, tags, fields, ts, vType)`: the point is
handed to the sink, which answers with its error. -/
def EnqueuePoint (batch : Sink) (handed : List Point) (p : Point) : Option String × List Point :=
  (batch handed p, handed ++ [p])

/-- A sink that accepts every point. -/
def acceptAll : Sink := fun _ _ => none

/-! ## Package `common` and the helpers outside this file -/

/-- Modelled from the spec: the constant `common.MeasurementPrometheus`, declared outside
this file; the spec gives the measurement name as the constant "prometheus". -/
def MeasurementPrometheus : String := "prometheus"

/-- Modelled from the spec: the constant `common.MetricHistogramCountSuffix`, declared
outside this file; the spec names the field `measurement+"_count"`. -/
def MetricHistogramCountSuffix : String := "_count"

/-- Modelled from the spec: the constant `common.MetricHistogramSumSuffix`, declared
outside this file; the spec names the field `measurement+"_sum"`. -/
def MetricHistogramSumSuffix : String := "_sum"

/-- Modelled from the spec: the constant `common.MetricHistogramMinSuffix`, declared
outside this file; the spec names the field `measurement+"_min"`. -/
def MetricHistogramMinSuffix : String := "_min"

/-- Modelled from the spec: the constant `common.MetricHistogramMaxSuffix`, declared
outside this file; the spec names the field `measurement+"_max"`. -/
def MetricHistogramMaxSuffix : String := "_max"

/-- Modelled from the spec: the constant `common.MetricHistogramBucketSuffix`, declared
outside this file; the spec names the field `measurement+"_bucket"`. -/
def MetricHistogramBucketSuffix : String := "_bucket"

/-- Modelled from the spec: the constant `common.MetricHistogramInfFieldKey`, declared
outside this file; the spec's histogram example writes the sentinel as "+Inf". -/
def MetricHistogramInfFieldKey : String := "+Inf"

/-- Modelled from the spec: the constant `common.MetricSummaryCountSuffix`, declared
outside this file; the spec names the field `measurement+"_count"`. -/
def MetricSummaryCountSuffix : String := "_count"

/-- Modelled from the spec: the constant `common.MetricSummarySumSuffix`, declared
outside this file; the spec names the field `measurement+"_sum"`. -/
def MetricSummarySumSuffix : String := "_sum"

/-- What the writer uses from outside this file and the spec leaves open: three key
constants of package `common`, the tag helpers `ResourceToTags` and
`InstrumentationScopeToTags`, `strconv.FormatFloat(x, 'f', -1, 64)` and
`pcommon.Value.AsString`. Every definition below takes them as a parameter. -/
structure Env where
  AttributeStartTimeUnixNano : String
  MetricHistogramBoundKeyV2 : String
  MetricSummaryQuantileKeyV2 : String
  ResourceToTags : Resource → GoMap String → GoMap String
  InstrumentationScopeToTags : InstrumentationScope → GoMap String → GoMap String
  FormatFloat : Float64 → String
  AsString : Value → String

/-! ## The writer -/

/-- The field map `initMetricTagsAndTimestamp` builds (lines 48-51). -/
def initFields (env : Env) (dataPoint : basicDataPoint) : GoMap FieldValue :=
  let fields : GoMap FieldValue := []
  if dataPoint.StartTimestamp ≠ 0 then
    fields.set env.AttributeStartTimeUnixNano (.int64 (toInt64 dataPoint.StartTimestamp))
  else fields

/-- The attribute walk of `initMetricTagsAndTimestamp` (lines 53-60): every attribute
with a non-empty key is written to `tags`, in order. -/
def attributesToTags (env : Env) (attributes : Attributes) (tags : GoMap String) :
    GoMap String :=
  attributes.foldl
    (fun tags kv => if kv.1 = "" then tags else tags.set kv.1 (env.AsString kv.2)) tags

/-- The tag map `initMetricTagsAndTimestamp` builds (lines 47, 53-67). -/
def initTags (env : Env) (resource : Resource) (instrumentationLibrary : InstrumentationScope)
    (dataPoint : basicDataPoint) : GoMap String :=
  let tags : GoMap String := []
  let tags := attributesToTags env dataPoint.Attributes tags
  let tags := env.ResourceToTags resource tags
  env.InstrumentationScopeToTags instrumentationLibrary tags

/-- The method `initMetricTagsAndTimestamp` (lines 40-70). The check `err != nil` after the
attribute walk reads an `err` that is still `nil` there. -/
def initMetricTagsAndTimestamp (env : Env) (resource : Resource)
    (instrumentationLibrary : InstrumentationScope) (dataPoint : basicDataPoint) :
    Except Error (GoMap String × GoMap FieldValue × Time) :=
  let ts := Timestamp.AsTime dataPoint.Timestamp
  if ts.IsZero then .error .noTimestamp
  else
    .ok (initTags env resource instrumentationLibrary dataPoint, initFields env dataPoint, ts)

/-- The method `enqueueGauge` (lines 72-97); the result is the returned error and the
points handed to the sink. -/
def enqueueGauge (env : Env) (resource : Resource) (instrumentationLibrary : InstrumentationScope)
    (measurement : String) (gauge : List NumberDataPoint) (batch : Sink)
    (handed : List Point) : Option Error × List Point :=
  match gauge with
  | [] => (none, handed)
  | dataPoint :: rest =>
    match initMetricTagsAndTimestamp env resource instrumentationLibrary
        dataPoint.tobasicDataPoint with
    | .error err => (some err, handed)
    | .ok (tags, fields, ts) =>
      let fields? : Option (GoMap FieldValue) :=
        match dataPoint.Value with
        | .Empty => none
        | .Double v => some (fields.set measurement (.float64 v))
        | .Int v => some (fields.set measurement (.int64 v))
      match fields? with
      | none => enqueueGauge env resource instrumentationLibrary measurement rest batch handed
      | some fields =>
        match EnqueuePoint batch handed ⟨MeasurementPrometheus, tags, fields, ts, .Gauge⟩ with
        | (some err, handed) => (some (.failedToWritePoint "gauge" err), handed)
        | (none, handed) =>
          enqueueGauge env resource instrumentationLibrary measurement rest batch handed

/-- The method `enqueueGaugeFromSum` (lines 99-125). -/
def enqueueGaugeFromSum (env : Env) (resource : Resource)
    (instrumentationLibrary : InstrumentationScope)
    (measurement : String) (sum : List NumberDataPoint) (batch : Sink)
    (handed : List Point) : Option Error × List Point :=
  match sum with
  | [] => (none, handed)
  | dataPoint :: rest =>
    match initMetricTagsAndTimestamp env resource instrumentationLibrary
        dataPoint.tobasicDataPoint with
    | .error err => (some err, handed)
    | .ok (tags, fields, ts) =>
      let fields? : Option (GoMap FieldValue) :=
        match dataPoint.Value with
        | .Empty => none
        | .Double v => some (fields.set measurement (.float64 v))
        | .Int v => some (fields.set measurement (.int64 v))
      match fields? with
      | none =>
        enqueueGaugeFromSum env resource instrumentationLibrary measurement rest batch handed
      | some fields =>
        match EnqueuePoint batch handed ⟨MeasurementPrometheus, tags, fields, ts, .Gauge⟩ with
        | (some err, handed) => (some (.failedToWritePoint "sum (as gauge)" err), handed)
        | (none, handed) =>
          enqueueGaugeFromSum env resource instrumentationLibrary measurement rest batch handed

/-- The method `enqueueSum` (lines 127-152). -/
def enqueueSum (env : Env) (resource : Resource) (instrumentationLibrary : InstrumentationScope)
    (measurement : String) (sum : List NumberDataPoint) (batch : Sink)
    (handed : List Point) : Option Error × List Point :=
  match sum with
  | [] => (none, handed)
  | dataPoint :: rest =>
    match initMetricTagsAndTimestamp env resource instrumentationLibrary
        dataPoint.tobasicDataPoint with
    | .error err => (some err, handed)
    | .ok (tags, fields, ts) =>
      let fields? : Option (GoMap FieldValue) :=
        match dataPoint.Value with
        | .Empty => none
        | .Double v => some (fields.set measurement (.float64 v))
        | .Int v => some (fields.set measurement (.int64 v))
      match fields? with
      | none => enqueueSum env resource instrumentationLibrary measurement rest batch handed
      | some fields =>
        match EnqueuePoint batch handed ⟨MeasurementPrometheus, tags, fields, ts, .Sum⟩ with
        | (some err, handed) => (some (.failedToWritePoint "sum" err), handed)
        | (none, handed) =>
          enqueueSum env resource instrumentationLibrary measurement rest batch handed

/-- The inner loop of `enqueueHistogram` (lines 195-198): the `uint64` accumulator
`bucketCount` after adding `bucketCounts.At(j)` for `j = 0, ..., i`. -/
def cumulativeBucketCount (bucketCounts : List Nat) (i : Nat) : Nat :=
  (List.range (i + 1)).foldl
    (fun bucketCount j => (bucketCount + bucketCounts.getD j 0) % 2 ^ 64) 0

/-- The field map of the histogram base point (lines 163-175). -/
def histogramBaseFields (measurement : String) (dataPoint : HistogramDataPoint)
    (fields : GoMap FieldValue) : GoMap FieldValue :=
  let f := GoMap.clone fields
  let f := f.set (measurement ++ MetricHistogramCountSuffix)
    (.float64 (Float64.ofUInt64 dataPoint.Count))
  let f := f.set (measurement ++ MetricHistogramSumSuffix) (.float64 dataPoint.Sum)
  let f :=
    if dataPoint.HasMin then
      f.set (measurement ++ MetricHistogramMinSuffix) (.float64 dataPoint.Min)
    else f
  if dataPoint.HasMax then
    f.set (measurement ++ MetricHistogramMaxSuffix) (.float64 dataPoint.Max)
  else f

/-- The point built by iteration `i` of the bucket loop of `enqueueHistogram`
(lines 192-207). -/
def histogramBucketPoint (env : Env) (measurement : String) (tags : GoMap String)
    (fields : GoMap FieldValue) (ts : Time) (bucketCounts : List Nat)
    (explicitBounds : List Float64) (i : Nat) : Point :=
  let tags := GoMap.clone tags
  let fields := GoMap.clone fields
  let bucketCount := cumulativeBucketCount bucketCounts i
  let boundTagValue :=
    if h : explicitBounds.length > i then env.FormatFloat explicitBounds[i]
    else MetricHistogramInfFieldKey
  let tags := tags.set env.MetricHistogramBoundKeyV2 boundTagValue
  let fields := fields.set (measurement ++ MetricHistogramBucketSuffix)
    (.float64 (Float64.ofUInt64 bucketCount))
  ⟨MeasurementPrometheus, tags, fields, ts, .Histogram⟩

/-- The bucket loop of `enqueueHistogram` (lines 191-212), over the indices still to do. -/
def enqueueHistogramBuckets (env : Env) (measurement : String) (tags : GoMap String)
    (fields : GoMap FieldValue) (ts : Time) (bucketCounts : List Nat)
    (explicitBounds : List Float64) (batch : Sink) :
    List Nat → List Point → Option Error × List Point
  | [], handed => (none, handed)
  | i :: is, handed =>
    match EnqueuePoint batch handed
        (histogramBucketPoint env measurement tags fields ts bucketCounts explicitBounds i) with
    | (some err, handed) => (some (.failedToWritePoint "histogram" err), handed)
    | (none, handed) =>
      enqueueHistogramBuckets env measurement tags fields ts bucketCounts explicitBounds
        batch is handed

/-- The method `enqueueHistogram` (lines 154-216). -/
def enqueueHistogram (env : Env) (resource : Resource)
    (instrumentationLibrary : InstrumentationScope)
    (measurement : String) (histogram : List HistogramDataPoint) (batch : Sink)
    (handed : List Point) : Option Error × List Point :=
  match histogram with
  | [] => (none, handed)
  | dataPoint :: rest =>
    match initMetricTagsAndTimestamp env resource instrumentationLibrary
        dataPoint.tobasicDataPoint with
    | .error err => (some err, handed)
    | .ok (tags, fields, ts) =>
      let f := histogramBaseFields measurement dataPoint fields
      match EnqueuePoint batch handed ⟨MeasurementPrometheus, tags, f, ts, .Histogram⟩ with
      | (some err, handed) => (some (.failedToWritePoint "histogram" err), handed)
      | (none, handed) =>
        let bucketCounts := dataPoint.BucketCounts
        let explicitBounds := dataPoint.ExplicitBounds
        if bucketCounts.length > 0 ∧
            bucketCounts.length ≠ explicitBounds.length ∧
            bucketCounts.length ≠ explicitBounds.length + 1 then
          (some (.invalidBucketCounts bucketCounts.length explicitBounds.length), handed)
        else
          match enqueueHistogramBuckets env measurement tags fields ts bucketCounts
              explicitBounds batch (List.range bucketCounts.length) handed with
          | (some err, handed) => (some err, handed)
          | (none, handed) =>
            enqueueHistogram env resource instrumentationLibrary measurement rest batch handed

/-- The field map of the summary base point (lines 227-233). -/
def summaryBaseFields (measurement : String) (dataPoint : SummaryDataPoint)
    (fields : GoMap FieldValue) : GoMap FieldValue :=
  let f := GoMap.clone fields
  let f := f.set (measurement ++ MetricSummaryCountSuffix)
    (.float64 (Float64.ofUInt64 dataPoint.Count))
  f.set (measurement ++ MetricSummarySumSuffix) (.float64 dataPoint.Sum)

/-- The point built by one iteration of the quantile loop of `enqueueSummary`
(lines 241-253); `float64(valueAtQuantile.Value())` converts a `float64` to itself. -/
def summaryQuantilePoint (env : Env) (measurement : String) (tags : GoMap String)
    (fields : GoMap FieldValue) (ts : Time) (valueAtQuantile : ValueAtQuantile) : Point :=
  let t := GoMap.clone tags
  let f := GoMap.clone fields
  let quantileTagValue := env.FormatFloat valueAtQuantile.Quantile
  let t := t.set env.MetricSummaryQuantileKeyV2 quantileTagValue
  let f := f.set measurement (.float64 valueAtQuantile.Value)
  ⟨MeasurementPrometheus, t, f, ts, .Summary⟩

/-- The quantile loop of `enqueueSummary` (lines 240-258), over the entries still to do. -/
def enqueueSummaryQuantiles (env : Env) (measurement : String) (tags : GoMap String)
    (fields : GoMap FieldValue) (ts : Time) (batch : Sink) :
    List ValueAtQuantile → List Point → Option Error × List Point
  | [], handed => (none, handed)
  | valueAtQuantile :: rest, handed =>
    match EnqueuePoint batch handed
        (summaryQuantilePoint env measurement tags fields ts valueAtQuantile) with
    | (some err, handed) => (some (.failedToWritePoint "summary" err), handed)
    | (none, handed) =>
      enqueueSummaryQuantiles env measurement tags fields ts batch rest handed

/-- The method `enqueueSummary` (lines 218-262). -/
def enqueueSummary (env : Env) (resource : Resource)
    (instrumentationLibrary : InstrumentationScope)
    (measurement : String) (summary : List SummaryDataPoint) (batch : Sink)
    (handed : List Point) : Option Error × List Point :=
  match summary with
  | [] => (none, handed)
  | dataPoint :: rest =>
    match initMetricTagsAndTimestamp env resource instrumentationLibrary
        dataPoint.tobasicDataPoint with
    | .error err => (some err, handed)
    | .ok (tags, fields, ts) =>
      let f := summaryBaseFields measurement dataPoint fields
      match EnqueuePoint batch handed ⟨MeasurementPrometheus, tags, f, ts, .Summary⟩ with
      | (some err, handed) => (some (.failedToWritePoint "summary" err), handed)
      | (none, handed) =>
        match enqueueSummaryQuantiles env measurement tags fields ts batch
            dataPoint.QuantileValues handed with
        | (some err, handed) => (some err, handed)
        | (none, handed) =>
          enqueueSummary env resource instrumentationLibrary measurement rest batch handed

/-- The method `enqueueMetric` (lines 21-38). -/
def enqueueMetric (env : Env) (resource : Resource)
    (instrumentationLibrary : InstrumentationScope) (metric : Metric) (batch : Sink)
    (handed : List Point) : Option Error × List Point :=
  match metric.Data with
  | .Gauge dataPoints =>
    enqueueGauge env resource instrumentationLibrary metric.Name dataPoints batch handed
  | .Sum isMonotonic dataPoints =>
    if isMonotonic then
      enqueueSum env resource instrumentationLibrary metric.Name dataPoints batch handed
    else
      enqueueGaugeFromSum env resource instrumentationLibrary metric.Name dataPoints batch handed
  | .Histogram dataPoints =>
    enqueueHistogram env resource instrumentationLibrary metric.Name dataPoints batch handed
  | .Summary dataPoints =>
    enqueueSummary env resource instrumentationLibrary metric.Name dataPoints batch handed
  | _ => (some (.unknownMetricType metric.Type), handed)

/-! ## Runs as lists of points -/

/-- The data points of a metric, each through the interface `basicDataPoint`: the data
points of `metric.Gauge()`, `metric.Sum()`, `metric.Histogram()` or `metric.Summary()`;
the other metric types carry none that the writer reads. -/
def MetricData.dataPoints : MetricData → List basicDataPoint
  | .Gauge dataPoints => dataPoints.map (fun dp => dp.tobasicDataPoint)
  | .Sum _ dataPoints => dataPoints.map (fun dp => dp.tobasicDataPoint)
  | .Histogram dataPoints => dataPoints.map (fun dp => dp.tobasicDataPoint)
  | .Summary dataPoints => dataPoints.map (fun dp => dp.tobasicDataPoint)
  | _ => []

/-- The keys the writer writes to field maps for a measurement: the start-timestamp key
(line 50), the measurement name (lines 84, 86, 253) and the measurement name with the
count, sum, min, max or bucket suffix (lines 168-174, 207, 232-233). -/
def fieldKeys (env : Env) (measurement : String) : List String :=
  [env.AttributeStartTimeUnixNano, measurement,
    measurement ++ MetricHistogramCountSuffix, measurement ++ MetricHistogramSumSuffix,
    measurement ++ MetricHistogramMinSuffix, measurement ++ MetricHistogramMaxSuffix,
    measurement ++ MetricHistogramBucketSuffix]

/-- The statement pattern
`if err = batch.EnqueuePoint(...); err != nil { return fmt.Errorf("...: %w", err) }`,
where the text is `"failed to write point for " ++ what`, run over a list of points: the
points are handed to the sink in order, up to and including the first one the sink
rejects; `final` is returned when none is rejected. -/
def enqueuePoints (what : String) (batch : Sink) :
    List Point → Option Error → List Point → Option Error × List Point
  | [], final, handed => (final, handed)
  | p :: ps, final, handed =>
    match EnqueuePoint batch handed p with
    | (some err, handed) => (some (.failedToWritePoint what err), handed)
    | (none, handed) => enqueuePoints what batch ps final handed

/-- The common text of `enqueueGauge`, `enqueueGaugeFromSum` and `enqueueSum`, which differ
in the value-kind they pass to `EnqueuePoint` and in the wording of the error only; each of
the three is shown equal to it below. -/
def enqueueNumberDataPoints (env : Env) (resource : Resource)
    (instrumentationLibrary : InstrumentationScope) (measurement : String)
    (kind : InfluxMetricValueType) (what : String) (dataPoints : List NumberDataPoint)
    (batch : Sink) (handed : List Point) : Option Error × List Point :=
  match dataPoints with
  | [] => (none, handed)
  | dataPoint :: rest =>
    match initMetricTagsAndTimestamp env resource instrumentationLibrary
        dataPoint.tobasicDataPoint with
    | .error err => (some err, handed)
    | .ok (tags, fields, ts) =>
      let fields? : Option (GoMap FieldValue) :=
        match dataPoint.Value with
        | .Empty => none
        | .Double v => some (fields.set measurement (.float64 v))
        | .Int v => some (fields.set measurement (.int64 v))
      match fields? with
      | none =>
        enqueueNumberDataPoints env resource instrumentationLibrary measurement kind what
          rest batch handed
      | some fields =>
        match EnqueuePoint batch handed ⟨MeasurementPrometheus, tags, fields, ts, kind⟩ with
        | (some err, handed) => (some (.failedToWritePoint what err), handed)
        | (none, handed) =>
          enqueueNumberDataPoints env resource instrumentationLibrary measurement kind what
            rest batch handed

/-- What every point the writer builds from a data point has in common: the measurement
name, the timestamp of the data point, the tags of the data point with at most the bound
or the quantile key written on top, at least one field, and field keys among
`fieldKeys`. -/
def builtFrom (env : Env) (resource : Resource) (scope : InstrumentationScope)
    (measurement : String) (dp : basicDataPoint) (p : Point) : Prop :=
  p.measurement = MeasurementPrometheus ∧
  p.ts = Timestamp.AsTime dp.Timestamp ∧
  (p.tags = initTags env resource scope dp ∨
    (∃ v, p.tags = (initTags env resource scope dp).set env.MetricHistogramBoundKeyV2 v) ∨
    (∃ v, p.tags = (initTags env resource scope dp).set env.MetricSummaryQuantileKeyV2 v)) ∧
  (∃ k v, p.fields.get? k = some v) ∧
  (∀ k, p.fields.get? k ≠ none →
    k ∈ fieldKeys env measurement)

/-! ## Sample inputs -/

/-- A sample instance of `Env`: the key constants as upstream declares them, tag helpers
that add nothing, and string forms for the few values the samples use. -/
def sampleEnv : Env where
  AttributeStartTimeUnixNano := "start_time_unix_nano"
  MetricHistogramBoundKeyV2 := "le"
  MetricSummaryQuantileKeyV2 := "quantile"
  ResourceToTags := fun _ tags => tags
  InstrumentationScopeToTags := fun _ tags => tags
  FormatFloat := fun x =>
    if x.bits = 0x3FB999999999999A then "0.1"
    else if x.bits = 0x3FE0000000000000 then "0.5"
    else if x.bits = 0x3FEFAE147AE147AE then "0.99"
    else "1"
  AsString := fun v => match v with
    | .str s => s
    | _ => ""

/-- A resource without attributes. -/
def sampleResource : Resource := ⟨[], 0⟩

/-- An instrumentation scope without attributes. -/
def sampleScope : InstrumentationScope := ⟨"", "", [], 0⟩

/-- The spec's histogram example: bucket counts `[2, 3, 5]`, explicit bounds
`[0.1, 0.5]`, attribute `host = a`, count 10, sum 1.0, no min or max. -/
def sampleHistogram : HistogramDataPoint where
  Timestamp := 1700000000000000000
  StartTimestamp := 0
  Attributes := [("host", .str "a")]
  Count := 10
  Sum := ⟨0x3FF0000000000000⟩
  HasMin := false
  Min := ⟨0⟩
  HasMax := false
  Max := ⟨0⟩
  BucketCounts := [2, 3, 5]
  ExplicitBounds := [⟨0x3FB999999999999A⟩, ⟨0x3FE0000000000000⟩]

/-- The sample histogram with a fourth bucket count: four bucket counts against two
explicit bounds. -/
def sampleInvalidHistogram : HistogramDataPoint :=
  { sampleHistogram with Count := 17, BucketCounts := [2, 3, 5, 7] }

/-- A histogram data point whose bucket counts wrap the `uint64` accumulator at the
second bucket: counts `[2^63, 2^63, 1]` against explicit bounds `[0.1, 0.5]`. -/
def sampleWrapHistogram : HistogramDataPoint :=
  { sampleHistogram with
    Count := 1
    BucketCounts := [9223372036854775808, 9223372036854775808, 1] }

/-- A histogram data point with bucket counts `[2^64 - 1, 1]` against the explicit
bound `[0.5]`. -/
def sampleDecreasingHistogram : HistogramDataPoint :=
  { sampleHistogram with
    Count := 0
    BucketCounts := [18446744073709551615, 1]
    ExplicitBounds := [⟨0x3FE0000000000000⟩] }

/-- The sample histogram with a start timestamp, a declared min of 0.1 and a declared
max of 0.5. -/
def sampleMinMaxHistogram : HistogramDataPoint :=
  { sampleHistogram with
    StartTimestamp := 1699999999000000000
    HasMin := true
    Min := ⟨0x3FB999999999999A⟩
    HasMax := true
    Max := ⟨0x3FE0000000000000⟩ }

/-- A summary data point: count 3, sum 1.0, quantile entries `(0.5, 0.1)` and
`(0.99, 0.5)`, attribute `host = a`. -/
def sampleSummary : SummaryDataPoint where
  Timestamp := 1700000000000000000
  StartTimestamp := 0
  Attributes := [("host", .str "a")]
  Count := 3
  Sum := ⟨0x3FF0000000000000⟩
  QuantileValues :=
    [⟨⟨0x3FE0000000000000⟩, ⟨0x3FB999999999999A⟩⟩,
     ⟨⟨0x3FEFAE147AE147AE⟩, ⟨0x3FE0000000000000⟩⟩]

/-- The spec's gauge example: value 0.75, attribute `host = a`, no start timestamp. -/
def sampleGaugePoint : NumberDataPoint where
  Timestamp := 1700000000000000000
  StartTimestamp := 0
  Attributes := [("host", .str "a")]
  Value := .Double ⟨0x3FE8000000000000⟩

/-- A gauge data point without a value. -/
def sampleEmptyGaugePoint : NumberDataPoint :=
  { sampleGaugePoint with Value := .Empty }

/-- A gauge data point with the integer value 42. -/
def sampleIntGaugePoint : NumberDataPoint :=
  { sampleGaugePoint with Value := .Int 42 }

/-- The spec's gauge example with a start timestamp. -/
def sampleStartedGaugePoint : NumberDataPoint :=
  { sampleGaugePoint with StartTimestamp := 1699999999000000000 }

/-- A sink that rejects the points of value-kind Sum and accepts the others. -/
def sampleSumRejectingSink : Sink :=
  fun _ p => if p.vType = .Sum then some "value-kind Sum is not accepted" else none

/-- The spec's gauge example with the timestamp left unset (zero). -/
def sampleUnsetTimestampGaugePoint : NumberDataPoint :=
  { sampleGaugePoint with Timestamp := 0 }

/-- The spec's gauge example with the attribute key `cpu_usage` instead of `host`. -/
def sampleCollidingGaugePoint : NumberDataPoint :=
  { sampleGaugePoint with Attributes := [("cpu_usage", .str "a")] }

/-- A sink that accepts the first point handed to it and rejects the second. -/
def sampleSecondRejectingSink : Sink :=
  fun handed _ => if handed.length = 1 then some "batch is full" else none

/-- The spec's gauge example with three attributes, the second of them with an empty
key. -/
def sampleEmptyKeyGaugePoint : NumberDataPoint :=
  { sampleGaugePoint with
    Attributes := [("host", .str "a"), ("", .str "dropped"), ("region", .str "eu")] }

/-- The sample environment with the string form of the `float64` value +Inf as
`strconv.FormatFloat` gives it. -/
def sampleInfEnv : Env :=
  { sampleEnv with
    FormatFloat := fun x =>
      if x.bits = 0x7FF0000000000000 then "+Inf" else sampleEnv.FormatFloat x }

/-- A histogram data point with one bucket count and one explicit bound, the `float64`
value +Inf (`B = E`). -/
def sampleInfBoundHistogram : HistogramDataPoint :=
  { sampleHistogram with
    BucketCounts := [10]
    ExplicitBounds := [⟨0x7FF0000000000000⟩] }

/-- A histogram data point with two bucket counts and two explicit bounds (`B = E`) and
an attribute under the key `le`. -/
def sampleEqualHistogram : HistogramDataPoint :=
  { sampleHistogram with
    Attributes := [("le", .str "mine")]
    BucketCounts := [2, 3] }

/-- A gauge data point with the integer value 42, one second after `sampleGaugePoint`. -/
def sampleLaterGaugePoint : NumberDataPoint :=
  { sampleIntGaugePoint with Timestamp := 1700000001000000000 }

/-! ## Timestamps -/

theorem tdiv_billion_eq (n : Int) :
    Int.tdiv n 1000000000 = if 0 ≤ n then n / 1000000000 else -((-n) / 1000000000) := by
  split
  · rename_i h
    exact Int.tdiv_eq_ediv h (by decide)
  · rename_i h
    have h1 : Int.tdiv n 1000000000 = -(Int.tdiv (-n) 1000000000) := by
      rw [Int.neg_tdiv, Int.neg_neg]
    rw [h1, Int.tdiv_eq_ediv (by omega) (by decide)]

theorem Time.Unix_sec_pos (nsec : Int) (h : -9223372036854775808 ≤ nsec) :
    0 < (Time.Unix 0 nsec).sec := by
  unfold Time.Unix
  simp only [tdiv_billion_eq, unixToInternal]
  split_ifs <;> dsimp only <;> omega

/-- The time `AsTime` returns lies within 293 years of 1970, so `IsZero`, which asks for
January 1 of year 1, is false of it: every `Timestamp` passes the check of line 42. -/
theorem Timestamp.AsTime_IsZero (ts : Nat) : (Timestamp.AsTime ts).IsZero = false := by
  have h : 0 < (Time.Unix 0 (toInt64 ts)).sec := by
    apply Time.Unix_sec_pos
    unfold toInt64
    split <;> omega
  have h2 : (Timestamp.AsTime ts).sec ≠ 0 := by
    unfold Timestamp.AsTime
    omega
  simp [Time.IsZero, h2]

/-! ## Lemmas on maps and on the loops -/

theorem GoMap.get?_set {V : Type} (m : GoMap V) (k k' : String) (v : V) :
    (GoMap.set m k v).get? k' = if k = k' then some v else GoMap.get? m k' := by
  induction m with
  | nil => simp [GoMap.set, GoMap.get?]
  | cons hd tl ih =>
    obtain ⟨k0, v0⟩ := hd
    by_cases h0 : k0 = k
    · subst h0
      by_cases h1 : k0 = k' <;> simp [GoMap.set, GoMap.get?, h1]
    · by_cases h1 : k0 = k'
      · subst h1
        have h2 : ¬ k = k0 := fun h => h0 h.symm
        simp [GoMap.set, GoMap.get?, h0, h2]
      · simp [GoMap.set, GoMap.get?, h0, h1, ih]

theorem initMetricTagsAndTimestamp_ok (env : Env) (resource : Resource)
    (scope : InstrumentationScope) (dp : basicDataPoint)
    (hts : (Timestamp.AsTime dp.Timestamp).IsZero = false) :
    initMetricTagsAndTimestamp env resource scope dp =
      .ok (initTags env resource scope dp, initFields env dp, Timestamp.AsTime dp.Timestamp) := by
  simp [initMetricTagsAndTimestamp, hts]

theorem enqueueHistogramBuckets_acceptAll (env : Env) (m : String) (tags : GoMap String)
    (fields : GoMap FieldValue) (ts : Time) (bc : List Nat) (eb : List Float64)
    (is : List Nat) (handed : List Point) :
    enqueueHistogramBuckets env m tags fields ts bc eb acceptAll is handed =
      (none, handed ++ is.map (histogramBucketPoint env m tags fields ts bc eb)) := by
  induction is generalizing handed with
  | nil => simp [enqueueHistogramBuckets]
  | cons i is ih => simp [enqueueHistogramBuckets, EnqueuePoint, acceptAll, ih]

theorem enqueueHistogram_cons_acceptAll (env : Env) (resource : Resource)
    (scope : InstrumentationScope) (m : String) (dp : HistogramDataPoint)
    (rest : List HistogramDataPoint) (handed : List Point)
    (hts : (Timestamp.AsTime dp.Timestamp).IsZero = false)
    (hB : dp.BucketCounts.length = 0 ∨ dp.BucketCounts.length = dp.ExplicitBounds.length ∨
      dp.BucketCounts.length = dp.ExplicitBounds.length + 1) :
    enqueueHistogram env resource scope m (dp :: rest) acceptAll handed =
      enqueueHistogram env resource scope m rest acceptAll
        (handed ++
          (⟨MeasurementPrometheus, initTags env resource scope dp.tobasicDataPoint,
              histogramBaseFields m dp (initFields env dp.tobasicDataPoint),
              Timestamp.AsTime dp.Timestamp, .Histogram⟩ ::
            (List.range dp.BucketCounts.length).map
              (histogramBucketPoint env m (initTags env resource scope dp.tobasicDataPoint)
                (initFields env dp.tobasicDataPoint) (Timestamp.AsTime dp.Timestamp)
                dp.BucketCounts dp.ExplicitBounds))) := by
  have hcond : ¬ (dp.BucketCounts.length > 0 ∧
      dp.BucketCounts.length ≠ dp.ExplicitBounds.length ∧
      dp.BucketCounts.length ≠ dp.ExplicitBounds.length + 1) := by omega
  rw [enqueueHistogram, initMetricTagsAndTimestamp_ok _ _ _ _ hts]
  simp only [EnqueuePoint, acceptAll, if_neg hcond, enqueueHistogramBuckets_acceptAll]
  simp

theorem enqueueHistogram_cons_invalid (env : Env) (resource : Resource)
    (scope : InstrumentationScope) (m : String) (dp : HistogramDataPoint)
    (rest : List HistogramDataPoint) (batch : Sink) (handed : List Point)
    (hts : (Timestamp.AsTime dp.Timestamp).IsZero = false)
    (h0 : dp.BucketCounts.length ≠ 0)
    (hE : dp.BucketCounts.length ≠ dp.ExplicitBounds.length)
    (hE1 : dp.BucketCounts.length ≠ dp.ExplicitBounds.length + 1) :
    enqueueHistogram env resource scope m (dp :: rest) batch handed =
      ((match batch handed ⟨MeasurementPrometheus, initTags env resource scope dp.tobasicDataPoint,
              histogramBaseFields m dp (initFields env dp.tobasicDataPoint),
              Timestamp.AsTime dp.Timestamp, .Histogram⟩ with
        | some err => some (Error.failedToWritePoint "histogram" err)
        | none => some (Error.invalidBucketCounts dp.BucketCounts.length
            dp.ExplicitBounds.length)),
        handed ++ [⟨MeasurementPrometheus, initTags env resource scope dp.tobasicDataPoint,
              histogramBaseFields m dp (initFields env dp.tobasicDataPoint),
              Timestamp.AsTime dp.Timestamp, .Histogram⟩]) := by
  have hcond : (dp.BucketCounts.length > 0 ∧
      dp.BucketCounts.length ≠ dp.ExplicitBounds.length ∧
      dp.BucketCounts.length ≠ dp.ExplicitBounds.length + 1) := by omega
  rw [enqueueHistogram, initMetricTagsAndTimestamp_ok _ _ _ _ hts]
  simp only [EnqueuePoint, if_pos hcond]
  split <;> simp_all

/-! ## Histogram bucket cardinality -/

/-- C1 (as amended): for a histogram data point that passes the timestamp check and
whose bucket-count length `B` and explicit-bounds length `E` satisfy `B ≠ 0`, `B ≠ E` and
`B ≠ E + 1`, `enqueueHistogram` returns an error and hands exactly one point derived
from that data point to the sink, the base point, and no bucket point; when the sink
accepts the base point the error is the bucket-cardinality error. -/
theorem enqueueHistogram_invalid_cardinality_hands_base (env : Env) (resource : Resource)
    (scope : InstrumentationScope) (m : String) (dp : HistogramDataPoint)
    (rest : List HistogramDataPoint) (batch : Sink) (handed : List Point)
    (hts : (Timestamp.AsTime dp.Timestamp).IsZero = false)
    (h0 : dp.BucketCounts.length ≠ 0)
    (hE : dp.BucketCounts.length ≠ dp.ExplicitBounds.length)
    (hE1 : dp.BucketCounts.length ≠ dp.ExplicitBounds.length + 1) :
    (enqueueHistogram env resource scope m (dp :: rest) batch handed).1.isSome = true ∧
    (enqueueHistogram env resource scope m (dp :: rest) batch handed).2 =
      handed ++ [⟨MeasurementPrometheus, initTags env resource scope dp.tobasicDataPoint,
        histogramBaseFields m dp (initFields env dp.tobasicDataPoint),
        Timestamp.AsTime dp.Timestamp, .Histogram⟩] ∧
    (batch handed ⟨MeasurementPrometheus, initTags env resource scope dp.tobasicDataPoint,
        histogramBaseFields m dp (initFields env dp.tobasicDataPoint),
        Timestamp.AsTime dp.Timestamp, .Histogram⟩ = none →
      (enqueueHistogram env resource scope m (dp :: rest) batch handed).1 =
        some (.invalidBucketCounts dp.BucketCounts.length dp.ExplicitBounds.length)) := by
  rw [enqueueHistogram_cons_invalid env resource scope m dp rest batch handed hts h0 hE hE1]
  refine ⟨?_, rfl, ?_⟩
  · cases batch handed _ <;> rfl
  · intro h
    simp [h]

/-- C1, witness: the amended statement at the sample histogram with four bucket counts
and two explicit bounds. -/
theorem enqueueHistogram_invalid_cardinality_hands_base_witness :
    (enqueueHistogram sampleEnv sampleResource sampleScope "latency"
        [sampleInvalidHistogram] acceptAll []).1.isSome = true ∧
    (enqueueHistogram sampleEnv sampleResource sampleScope "latency"
        [sampleInvalidHistogram] acceptAll []).2 =
      [] ++ [⟨MeasurementPrometheus,
        initTags sampleEnv sampleResource sampleScope sampleInvalidHistogram.tobasicDataPoint,
        histogramBaseFields "latency" sampleInvalidHistogram
          (initFields sampleEnv sampleInvalidHistogram.tobasicDataPoint),
        Timestamp.AsTime sampleInvalidHistogram.Timestamp, .Histogram⟩] ∧
    (acceptAll [] ⟨MeasurementPrometheus,
        initTags sampleEnv sampleResource sampleScope sampleInvalidHistogram.tobasicDataPoint,
        histogramBaseFields "latency" sampleInvalidHistogram
          (initFields sampleEnv sampleInvalidHistogram.tobasicDataPoint),
        Timestamp.AsTime sampleInvalidHistogram.Timestamp, .Histogram⟩ = none →
      (enqueueHistogram sampleEnv sampleResource sampleScope "latency"
        [sampleInvalidHistogram] acceptAll []).1 =
        some (.invalidBucketCounts sampleInvalidHistogram.BucketCounts.length
          sampleInvalidHistogram.ExplicitBounds.length)) :=
  enqueueHistogram_invalid_cardinality_hands_base sampleEnv sampleResource sampleScope
    "latency" sampleInvalidHistogram [] acceptAll [] (by decide) (by decide) (by decide)
    (by decide)

/-- C1, counterexample: the sample histogram with four bucket counts and two explicit
bounds passes the timestamp check and has `B ≠ 0`, `B ≠ E`, `B ≠ E + 1`; `enqueueHistogram`
returns the bucket-cardinality error, yet the sink has been handed one point, the base
point of that data point. -/
theorem enqueueHistogram_invalid_cardinality_not_zero_points :
    (Timestamp.AsTime sampleInvalidHistogram.Timestamp).IsZero = false ∧
    sampleInvalidHistogram.BucketCounts.length = 4 ∧
    sampleInvalidHistogram.ExplicitBounds.length = 2 ∧
    enqueueHistogram sampleEnv sampleResource sampleScope "latency"
        [sampleInvalidHistogram] acceptAll [] =
      (some (.invalidBucketCounts 4 2),
        [⟨"prometheus", [("host", "a")],
          [("latency_count", .float64 ⟨0x4031000000000000⟩),
           ("latency_sum", .float64 ⟨0x3FF0000000000000⟩)],
          ⟨63835596800, 0⟩, .Histogram⟩]) ∧
    (enqueueHistogram sampleEnv sampleResource sampleScope "latency"
        [sampleInvalidHistogram] acceptAll []).2 ≠ [] := by
  decide

/-- C2: for a histogram whose data points all pass the timestamp check, and a sink that
accepts every point, `enqueueHistogram` returns no error if and only if every data point
has `B = 0`, `B = E` or `B = E + 1` (`B` bucket counts, `E` explicit bounds). -/
theorem enqueueHistogram_no_error_iff_valid_cardinality (env : Env) (resource : Resource)
    (scope : InstrumentationScope) (m : String) (histogram : List HistogramDataPoint)
    (handed : List Point)
    (hts : ∀ dp ∈ histogram, (Timestamp.AsTime dp.Timestamp).IsZero = false) :
    (enqueueHistogram env resource scope m histogram acceptAll handed).1 = none ↔
      ∀ dp ∈ histogram, dp.BucketCounts.length = 0 ∨
        dp.BucketCounts.length = dp.ExplicitBounds.length ∨
        dp.BucketCounts.length = dp.ExplicitBounds.length + 1 := by
  induction histogram generalizing handed with
  | nil => simp [enqueueHistogram]
  | cons dp rest ih =>
    have hdp := hts dp (List.mem_cons_self dp rest)
    have hrest : ∀ d ∈ rest, (Timestamp.AsTime d.Timestamp).IsZero = false :=
      fun d hd => hts d (List.mem_cons_of_mem dp hd)
    by_cases hB : dp.BucketCounts.length = 0 ∨
        dp.BucketCounts.length = dp.ExplicitBounds.length ∨
        dp.BucketCounts.length = dp.ExplicitBounds.length + 1
    · rw [enqueueHistogram_cons_acceptAll env resource scope m dp rest handed hdp hB,
        ih _ hrest]
      constructor
      · intro h d hd
        rcases List.mem_cons.1 hd with rfl | hd'
        · exact hB
        · exact h d hd'
      · intro h d hd
        exact h d (List.mem_cons_of_mem dp hd)
    · have h0 : dp.BucketCounts.length ≠ 0 := fun h => hB (Or.inl h)
      have hE : dp.BucketCounts.length ≠ dp.ExplicitBounds.length :=
        fun h => hB (Or.inr (Or.inl h))
      have hE1 : dp.BucketCounts.length ≠ dp.ExplicitBounds.length + 1 :=
        fun h => hB (Or.inr (Or.inr h))
      rw [enqueueHistogram_cons_invalid env resource scope m dp rest acceptAll handed hdp
        h0 hE hE1]
      constructor
      · intro h
        simp [acceptAll] at h
      · intro h
        exact absurd (h dp (List.mem_cons_self dp rest)) hB

/-- C2, witness: the statement at the histogram made of the spec's example data point
followed by the sample data point with four bucket counts and two explicit bounds. -/
theorem enqueueHistogram_no_error_iff_valid_cardinality_witness :
    (enqueueHistogram sampleEnv sampleResource sampleScope "latency"
        [sampleHistogram, sampleInvalidHistogram] acceptAll []).1 = none ↔
      ∀ dp ∈ [sampleHistogram, sampleInvalidHistogram], dp.BucketCounts.length = 0 ∨
        dp.BucketCounts.length = dp.ExplicitBounds.length ∨
        dp.BucketCounts.length = dp.ExplicitBounds.length + 1 :=
  enqueueHistogram_no_error_iff_valid_cardinality sampleEnv sampleResource sampleScope
    "latency" [sampleHistogram, sampleInvalidHistogram] []
    (by intro dp hdp; simp at hdp; rcases hdp with rfl | rfl <;> decide)

theorem enqueueHistogramBuckets_log (env : Env) (m : String) (tags : GoMap String)
    (fields : GoMap FieldValue) (ts : Time) (bc : List Nat) (eb : List Float64)
    (batch : Sink) (is : List Nat) (handed : List Point) :
    ∃ n, n ≤ is.length ∧
      (enqueueHistogramBuckets env m tags fields ts bc eb batch is handed).2 =
        handed ++ (is.take n).map (histogramBucketPoint env m tags fields ts bc eb) ∧
      ((enqueueHistogramBuckets env m tags fields ts bc eb batch is handed).1 = none →
        n = is.length) := by
  induction is generalizing handed with
  | nil => exact ⟨0, by simp [enqueueHistogramBuckets]⟩
  | cons i is ih =>
    rw [enqueueHistogramBuckets]
    simp only [EnqueuePoint]
    cases hb : batch handed (histogramBucketPoint env m tags fields ts bc eb i) with
    | some err => exact ⟨1, by simp⟩
    | none =>
      obtain ⟨n, hn, hlog, hnone⟩ := ih (handed ++ [histogramBucketPoint env m tags fields ts bc eb i])
      refine ⟨n + 1, by simpa using hn, ?_, ?_⟩
      · simp [hlog]
      · intro h
        simp [hnone h]

theorem enqueueHistogram_log (env : Env) (resource : Resource)
    (scope : InstrumentationScope) (m : String) (histogram : List HistogramDataPoint)
    (batch : Sink) (handed : List Point) :
    ∃ suffix, (enqueueHistogram env resource scope m histogram batch handed).2 =
      handed ++ suffix := by
  induction histogram generalizing handed with
  | nil => exact ⟨[], by simp [enqueueHistogram]⟩
  | cons dp rest ih =>
    rw [enqueueHistogram]
    cases hinit : initMetricTagsAndTimestamp env resource scope dp.tobasicDataPoint with
    | error err => exact ⟨[], by simp⟩
    | ok v =>
      obtain ⟨tags, fields, ts⟩ := v
      simp only [EnqueuePoint]
      cases hb : batch handed ⟨MeasurementPrometheus, tags,
          histogramBaseFields m dp fields, ts, .Histogram⟩ with
      | some err => exact ⟨[_], rfl⟩
      | none =>
        simp only []
        split
        · exact ⟨[_], rfl⟩
        · obtain ⟨n, -, hlog, -⟩ := enqueueHistogramBuckets_log env m tags fields ts
            dp.BucketCounts dp.ExplicitBounds batch (List.range dp.BucketCounts.length)
            (handed ++ [⟨MeasurementPrometheus, tags, histogramBaseFields m dp fields, ts,
              .Histogram⟩])
          split
          · rename_i err handed' heq
            have : handed' = _ := (congrArg Prod.snd heq).symm.trans hlog
            exact ⟨_, by rw [this, List.append_assoc]⟩
          · rename_i handed' heq
            have : handed' = _ := (congrArg Prod.snd heq).symm.trans hlog
            obtain ⟨suffix, hs⟩ := ih handed'
            exact ⟨_, by rw [hs, this, List.append_assoc, List.append_assoc]⟩

theorem enqueueHistogram_cons_log (env : Env) (resource : Resource)
    (scope : InstrumentationScope) (m : String) (dp : HistogramDataPoint)
    (rest : List HistogramDataPoint) (batch : Sink) (handed : List Point)
    (hts : (Timestamp.AsTime dp.Timestamp).IsZero = false)
    (hB : dp.BucketCounts.length = 0 ∨ dp.BucketCounts.length = dp.ExplicitBounds.length ∨
      dp.BucketCounts.length = dp.ExplicitBounds.length + 1) :
    ∃ n more, n ≤ dp.BucketCounts.length ∧
      (enqueueHistogram env resource scope m (dp :: rest) batch handed).2 =
        handed ++
          (⟨MeasurementPrometheus, initTags env resource scope dp.tobasicDataPoint,
              histogramBaseFields m dp (initFields env dp.tobasicDataPoint),
              Timestamp.AsTime dp.Timestamp, .Histogram⟩ ::
            ((List.range dp.BucketCounts.length).take n).map
              (histogramBucketPoint env m (initTags env resource scope dp.tobasicDataPoint)
                (initFields env dp.tobasicDataPoint) (Timestamp.AsTime dp.Timestamp)
                dp.BucketCounts dp.ExplicitBounds)) ++ more ∧
      (n < dp.BucketCounts.length → more = []) := by
  have hcond : ¬ (dp.BucketCounts.length > 0 ∧
      dp.BucketCounts.length ≠ dp.ExplicitBounds.length ∧
      dp.BucketCounts.length ≠ dp.ExplicitBounds.length + 1) := by omega
  rw [enqueueHistogram, initMetricTagsAndTimestamp_ok _ _ _ _ hts]
  simp only [EnqueuePoint, if_neg hcond]
  cases hb : batch handed ⟨MeasurementPrometheus,
      initTags env resource scope dp.tobasicDataPoint,
      histogramBaseFields m dp (initFields env dp.tobasicDataPoint),
      Timestamp.AsTime dp.Timestamp, .Histogram⟩ with
  | some err => exact ⟨0, [], Nat.zero_le _, by simp, fun _ => rfl⟩
  | none =>
    simp only []
    obtain ⟨n, hn, hlog, hnone⟩ := enqueueHistogramBuckets_log env m
      (initTags env resource scope dp.tobasicDataPoint) (initFields env dp.tobasicDataPoint)
      (Timestamp.AsTime dp.Timestamp) dp.BucketCounts dp.ExplicitBounds batch
      (List.range dp.BucketCounts.length)
      (handed ++ [⟨MeasurementPrometheus, initTags env resource scope dp.tobasicDataPoint,
        histogramBaseFields m dp (initFields env dp.tobasicDataPoint),
        Timestamp.AsTime dp.Timestamp, .Histogram⟩])
    rw [List.length_range] at hn hnone
    split
    · rename_i err handed' heq
      have h2 : handed' = _ := (congrArg Prod.snd heq).symm.trans hlog
      exact ⟨n, [], hn, by simp [h2], fun _ => rfl⟩
    · rename_i handed' heq
      have h2 : handed' = _ := (congrArg Prod.snd heq).symm.trans hlog
      have h1 : n = dp.BucketCounts.length := hnone (congrArg Prod.fst heq)
      obtain ⟨suffix, hs⟩ := enqueueHistogram_log env resource scope m rest batch handed'
      refine ⟨n, suffix, hn, ?_, fun h => absurd h1 (Nat.ne_of_lt h)⟩
      rw [hs, h2]
      simp

theorem enqueueHistogram_base_at (env : Env) (resource : Resource)
    (scope : InstrumentationScope) (m : String) (dp : HistogramDataPoint)
    (rest : List HistogramDataPoint) (batch : Sink) (handed : List Point)
    (hts : (Timestamp.AsTime dp.Timestamp).IsZero = false) :
    (enqueueHistogram env resource scope m (dp :: rest) batch handed).2[handed.length]? =
      some ⟨MeasurementPrometheus, initTags env resource scope dp.tobasicDataPoint,
        histogramBaseFields m dp (initFields env dp.tobasicDataPoint),
        Timestamp.AsTime dp.Timestamp, .Histogram⟩ := by
  by_cases hB : dp.BucketCounts.length = 0 ∨
      dp.BucketCounts.length = dp.ExplicitBounds.length ∨
      dp.BucketCounts.length = dp.ExplicitBounds.length + 1
  · obtain ⟨n, more, -, hlog, -⟩ :=
      enqueueHistogram_cons_log env resource scope m dp rest batch handed hts hB
    rw [hlog, List.append_assoc, List.getElem?_append_right (Nat.le_refl _), Nat.sub_self]
    simp
  · have h0 : dp.BucketCounts.length ≠ 0 := fun h => hB (Or.inl h)
    have hE : dp.BucketCounts.length ≠ dp.ExplicitBounds.length :=
      fun h => hB (Or.inr (Or.inl h))
    have hE1 : dp.BucketCounts.length ≠ dp.ExplicitBounds.length + 1 :=
      fun h => hB (Or.inr (Or.inr h))
    rw [enqueueHistogram_cons_invalid env resource scope m dp rest batch handed hts h0 hE hE1]
    simp

theorem enqueueHistogram_bucket_at (env : Env) (resource : Resource)
    (scope : InstrumentationScope) (m : String) (dp : HistogramDataPoint)
    (rest : List HistogramDataPoint) (batch : Sink) (handed : List Point)
    (hts : (Timestamp.AsTime dp.Timestamp).IsZero = false)
    (hB : dp.BucketCounts.length = 0 ∨ dp.BucketCounts.length = dp.ExplicitBounds.length ∨
      dp.BucketCounts.length = dp.ExplicitBounds.length + 1)
    (i : Nat) (hi : i < dp.BucketCounts.length) :
    (enqueueHistogram env resource scope m (dp :: rest) acceptAll handed).2[
        handed.length + 1 + i]? =
      some (histogramBucketPoint env m (initTags env resource scope dp.tobasicDataPoint)
        (initFields env dp.tobasicDataPoint) (Timestamp.AsTime dp.Timestamp)
        dp.BucketCounts dp.ExplicitBounds i) ∧
    ∀ p, (enqueueHistogram env resource scope m (dp :: rest) batch handed).2[
        handed.length + 1 + i]? = some p →
      p = histogramBucketPoint env m (initTags env resource scope dp.tobasicDataPoint)
        (initFields env dp.tobasicDataPoint) (Timestamp.AsTime dp.Timestamp)
        dp.BucketCounts dp.ExplicitBounds i := by
  constructor
  · rw [enqueueHistogram_cons_acceptAll env resource scope m dp rest handed hts hB]
    obtain ⟨suffix, hs⟩ := enqueueHistogram_log env resource scope m rest acceptAll
      (handed ++
          (⟨MeasurementPrometheus, initTags env resource scope dp.tobasicDataPoint,
              histogramBaseFields m dp (initFields env dp.tobasicDataPoint),
              Timestamp.AsTime dp.Timestamp, .Histogram⟩ ::
            (List.range dp.BucketCounts.length).map
              (histogramBucketPoint env m (initTags env resource scope dp.tobasicDataPoint)
                (initFields env dp.tobasicDataPoint) (Timestamp.AsTime dp.Timestamp)
                dp.BucketCounts dp.ExplicitBounds)))
    rw [hs, List.append_assoc, Nat.add_assoc, List.getElem?_append_right (Nat.le_add_right _ _),
      Nat.add_sub_cancel_left, Nat.add_comm 1 i, List.cons_append, List.getElem?_cons_succ,
      List.getElem?_append_left (by simpa using hi), List.getElem?_map,
      List.getElem?_range hi]
    rfl
  · intro p hp
    obtain ⟨n, more, hn, hlog, hmore⟩ :=
      enqueueHistogram_cons_log env resource scope m dp rest batch handed hts hB
    rw [hlog, List.append_assoc, Nat.add_assoc,
      List.getElem?_append_right (Nat.le_add_right _ _),
      Nat.add_sub_cancel_left, Nat.add_comm 1 i, List.cons_append,
      List.getElem?_cons_succ] at hp
    by_cases hin : i < n
    · rw [List.getElem?_append_left (by simp; omega), List.getElem?_map,
        List.getElem?_take_of_lt hin, List.getElem?_range hi] at hp
      exact (Option.some.inj hp).symm
    · have : more = [] := hmore (by omega)
      rw [this, List.append_nil, List.getElem?_eq_none (by simp; omega)] at hp
      cases hp

/-! ## Histogram points -/

/-- C3: for a histogram data point that passes the timestamp check and has `B = E + 1`
(`B` bucket counts, `E` explicit bounds), with a sink that accepts every point,
`enqueueHistogram` hands exactly `1 + B` points for that data point, the base point first
and then the `B` bucket points in index order, before it goes on with the remaining data
points; the bound tag of the last of these points is the `+Inf` sentinel. -/
theorem enqueueHistogram_emits_base_then_buckets (env : Env) (resource : Resource)
    (scope : InstrumentationScope) (m : String) (dp : HistogramDataPoint)
    (rest : List HistogramDataPoint) (handed : List Point)
    (hts : (Timestamp.AsTime dp.Timestamp).IsZero = false)
    (hB : dp.BucketCounts.length = dp.ExplicitBounds.length + 1) :
    enqueueHistogram env resource scope m (dp :: rest) acceptAll handed =
      enqueueHistogram env resource scope m rest acceptAll
        (handed ++
          (⟨MeasurementPrometheus, initTags env resource scope dp.tobasicDataPoint,
              histogramBaseFields m dp (initFields env dp.tobasicDataPoint),
              Timestamp.AsTime dp.Timestamp, .Histogram⟩ ::
            (List.range dp.BucketCounts.length).map
              (histogramBucketPoint env m (initTags env resource scope dp.tobasicDataPoint)
                (initFields env dp.tobasicDataPoint) (Timestamp.AsTime dp.Timestamp)
                dp.BucketCounts dp.ExplicitBounds))) ∧
    ((⟨MeasurementPrometheus, initTags env resource scope dp.tobasicDataPoint,
        histogramBaseFields m dp (initFields env dp.tobasicDataPoint),
        Timestamp.AsTime dp.Timestamp, .Histogram⟩ : Point) ::
      (List.range dp.BucketCounts.length).map
        (histogramBucketPoint env m (initTags env resource scope dp.tobasicDataPoint)
          (initFields env dp.tobasicDataPoint) (Timestamp.AsTime dp.Timestamp)
          dp.BucketCounts dp.ExplicitBounds)).length = 1 + dp.BucketCounts.length ∧
    ∃ last,
      ((⟨MeasurementPrometheus, initTags env resource scope dp.tobasicDataPoint,
          histogramBaseFields m dp (initFields env dp.tobasicDataPoint),
          Timestamp.AsTime dp.Timestamp, .Histogram⟩ : Point) ::
        (List.range dp.BucketCounts.length).map
          (histogramBucketPoint env m (initTags env resource scope dp.tobasicDataPoint)
            (initFields env dp.tobasicDataPoint) (Timestamp.AsTime dp.Timestamp)
            dp.BucketCounts dp.ExplicitBounds)).getLast? = some last ∧
      last.tags.get? env.MetricHistogramBoundKeyV2 = some MetricHistogramInfFieldKey := by
  refine ⟨enqueueHistogram_cons_acceptAll env resource scope m dp rest handed hts
    (Or.inr (Or.inr hB)), by simp [Nat.add_comm], ?_⟩
  refine ⟨histogramBucketPoint env m (initTags env resource scope dp.tobasicDataPoint)
    (initFields env dp.tobasicDataPoint) (Timestamp.AsTime dp.Timestamp)
    dp.BucketCounts dp.ExplicitBounds dp.ExplicitBounds.length, ?_, ?_⟩
  · rw [hB, List.range_succ, List.map_append, List.map_singleton, ← List.cons_append,
      List.getLast?_append]
    simp
  · simp [histogramBucketPoint, GoMap.clone, GoMap.get?_set]

/-- C3, witness: the statement at the spec's example, bucket counts `[2, 3, 5]` against
explicit bounds `[0.1, 0.5]`; the four points carry the bound tags none, `0.1`, `0.5` and
`+Inf`. -/
theorem enqueueHistogram_emits_base_then_buckets_witness :
    (enqueueHistogram sampleEnv sampleResource sampleScope "latency" [sampleHistogram]
        acceptAll [] =
      enqueueHistogram sampleEnv sampleResource sampleScope "latency" [] acceptAll
        ([] ++
          (⟨MeasurementPrometheus,
              initTags sampleEnv sampleResource sampleScope sampleHistogram.tobasicDataPoint,
              histogramBaseFields "latency" sampleHistogram
                (initFields sampleEnv sampleHistogram.tobasicDataPoint),
              Timestamp.AsTime sampleHistogram.Timestamp, .Histogram⟩ ::
            (List.range sampleHistogram.BucketCounts.length).map
              (histogramBucketPoint sampleEnv "latency"
                (initTags sampleEnv sampleResource sampleScope
                  sampleHistogram.tobasicDataPoint)
                (initFields sampleEnv sampleHistogram.tobasicDataPoint)
                (Timestamp.AsTime sampleHistogram.Timestamp)
                sampleHistogram.BucketCounts sampleHistogram.ExplicitBounds))) ∧
    ((⟨MeasurementPrometheus,
        initTags sampleEnv sampleResource sampleScope sampleHistogram.tobasicDataPoint,
        histogramBaseFields "latency" sampleHistogram
          (initFields sampleEnv sampleHistogram.tobasicDataPoint),
        Timestamp.AsTime sampleHistogram.Timestamp, .Histogram⟩ : Point) ::
      (List.range sampleHistogram.BucketCounts.length).map
        (histogramBucketPoint sampleEnv "latency"
          (initTags sampleEnv sampleResource sampleScope sampleHistogram.tobasicDataPoint)
          (initFields sampleEnv sampleHistogram.tobasicDataPoint)
          (Timestamp.AsTime sampleHistogram.Timestamp)
          sampleHistogram.BucketCounts sampleHistogram.ExplicitBounds)).length =
        1 + sampleHistogram.BucketCounts.length ∧
    ∃ last,
      ((⟨MeasurementPrometheus,
          initTags sampleEnv sampleResource sampleScope sampleHistogram.tobasicDataPoint,
          histogramBaseFields "latency" sampleHistogram
            (initFields sampleEnv sampleHistogram.tobasicDataPoint),
          Timestamp.AsTime sampleHistogram.Timestamp, .Histogram⟩ : Point) ::
        (List.range sampleHistogram.BucketCounts.length).map
          (histogramBucketPoint sampleEnv "latency"
            (initTags sampleEnv sampleResource sampleScope sampleHistogram.tobasicDataPoint)
            (initFields sampleEnv sampleHistogram.tobasicDataPoint)
            (Timestamp.AsTime sampleHistogram.Timestamp)
            sampleHistogram.BucketCounts sampleHistogram.ExplicitBounds)).getLast? =
          some last ∧
      last.tags.get? sampleEnv.MetricHistogramBoundKeyV2 = some MetricHistogramInfFieldKey) ∧
    (enqueueHistogram sampleEnv sampleResource sampleScope "latency" [sampleHistogram]
        acceptAll []).2.map (fun p => p.tags.get? "le") =
      [none, some "0.1", some "0.5", some "+Inf"] :=
  ⟨enqueueHistogram_emits_base_then_buckets sampleEnv sampleResource sampleScope "latency"
    sampleHistogram [] [] (by decide) (by decide), by decide⟩

/-! ## Cumulative bucket counts -/

theorem sum_take_succ (l : List Nat) (n : Nat) :
    (l.take (n + 1)).sum = (l.take n).sum + l.getD n 0 := by
  induction l generalizing n with
  | nil => simp
  | cons a t ih =>
    cases n with
    | zero => simp
    | succ n => simp [ih n, Nat.add_assoc]

theorem cumulativeBucketCount_succ (bc : List Nat) (i : Nat) :
    cumulativeBucketCount bc (i + 1) =
      (cumulativeBucketCount bc i + bc.getD (i + 1) 0) % 2 ^ 64 := by
  simp only [cumulativeBucketCount]
  rw [List.range_succ, List.foldl_append]
  rfl

theorem cumulativeBucketCount_eq (bc : List Nat) (i : Nat) :
    cumulativeBucketCount bc i = (bc.take (i + 1)).sum % 2 ^ 64 := by
  induction i with
  | zero =>
    cases bc <;> simp [cumulativeBucketCount, List.range_succ]
  | succ i ih =>
    rw [cumulativeBucketCount_succ, ih, sum_take_succ bc (i + 1), Nat.mod_add_mod]

theorem sum_take_le (l : List Nat) (i j : Nat) (hij : i ≤ j) :
    (l.take i).sum ≤ (l.take j).sum := by
  induction j with
  | zero =>
    have : i = 0 := Nat.le_zero.1 hij
    subst this
    exact Nat.le_refl _
  | succ j ih =>
    rcases Nat.lt_or_ge i (j + 1) with h | h
    · have := ih (Nat.lt_succ_iff.1 h)
      rw [sum_take_succ]
      omega
    · have : i = j + 1 := Nat.le_antisymm hij h
      subst this
      exact Nat.le_refl _

/-- C4 (as amended): for a histogram data point that passes the timestamp check and has
`B = 0`, `B = E` or `B = E + 1`, and every index `i < B`: with a sink that accepts every
point the `i`-th bucket point is handed to the sink right after the base point and the
earlier bucket points, with any sink nothing else is ever handed at that position, and
its field `measurement ++ "_bucket"` is the `float64` of the running sum of the bucket
counts at indices `0..i`, reduced modulo `2 ^ 64` as the `uint64` accumulator does. -/
theorem enqueueHistogram_bucket_field_cumulative (env : Env) (resource : Resource)
    (scope : InstrumentationScope) (m : String) (dp : HistogramDataPoint)
    (rest : List HistogramDataPoint) (batch : Sink) (handed : List Point)
    (hts : (Timestamp.AsTime dp.Timestamp).IsZero = false)
    (hB : dp.BucketCounts.length = 0 ∨ dp.BucketCounts.length = dp.ExplicitBounds.length ∨
      dp.BucketCounts.length = dp.ExplicitBounds.length + 1)
    (i : Nat) (hi : i < dp.BucketCounts.length) :
    ∃ p,
      (enqueueHistogram env resource scope m (dp :: rest) acceptAll handed).2[
        handed.length + 1 + i]? = some p ∧
      (∀ q, (enqueueHistogram env resource scope m (dp :: rest) batch handed).2[
        handed.length + 1 + i]? = some q → q = p) ∧
      p.fields.get? (m ++ MetricHistogramBucketSuffix) =
        some (.float64 (Float64.ofUInt64 ((dp.BucketCounts.take (i + 1)).sum % 2 ^ 64))) := by
  obtain ⟨h1, h2⟩ :=
    enqueueHistogram_bucket_at env resource scope m dp rest batch handed hts hB i hi
  refine ⟨_, h1, h2, ?_⟩
  simp [histogramBucketPoint, GoMap.clone, GoMap.get?_set, cumulativeBucketCount_eq]

/-- C4, witness: the amended statement at the spec's example, bucket counts `[2, 3, 5]`,
for the last bucket; the three bucket fields are the `float64` values 2, 5 and 10. -/
theorem enqueueHistogram_bucket_field_cumulative_witness :
    (∃ p,
      (enqueueHistogram sampleEnv sampleResource sampleScope "latency" [sampleHistogram]
        acceptAll []).2[([] : List Point).length + 1 + 2]? = some p ∧
      (∀ q, (enqueueHistogram sampleEnv sampleResource sampleScope "latency"
        [sampleHistogram] acceptAll []).2[([] : List Point).length + 1 + 2]? = some q →
          q = p) ∧
      p.fields.get? ("latency" ++ MetricHistogramBucketSuffix) =
        some (.float64 (Float64.ofUInt64
          ((sampleHistogram.BucketCounts.take (2 + 1)).sum % 2 ^ 64)))) ∧
    (enqueueHistogram sampleEnv sampleResource sampleScope "latency" [sampleHistogram]
        acceptAll []).2.map (fun p => p.fields.get? "latency_bucket") =
      [none, some (.float64 ⟨0x4000000000000000⟩), some (.float64 ⟨0x4014000000000000⟩),
        some (.float64 ⟨0x4024000000000000⟩)] :=
  ⟨enqueueHistogram_bucket_field_cumulative sampleEnv sampleResource sampleScope "latency"
    sampleHistogram [] acceptAll [] (by decide) (by decide) 2 (by decide), by decide⟩

/-- C4, counterexample: for bucket counts `[2^63, 2^63, 1]` against two explicit bounds
the running sum of the counts at indices `0..1` is `2^64`, yet the field
`latency_bucket` of the bucket point of index 1 is the `float64` zero. -/
theorem enqueueHistogram_bucket_field_wraps :
    (Timestamp.AsTime sampleWrapHistogram.Timestamp).IsZero = false ∧
    sampleWrapHistogram.BucketCounts.length = sampleWrapHistogram.ExplicitBounds.length + 1 ∧
    (sampleWrapHistogram.BucketCounts.take (1 + 1)).sum = 18446744073709551616 ∧
    ((enqueueHistogram sampleEnv sampleResource sampleScope "latency" [sampleWrapHistogram]
        acceptAll []).2[1 + 1]?).map (fun p => p.fields.get? "latency_bucket") =
      some (some (.float64 ⟨0⟩)) := by
  decide

/-- C5 (as amended): for every list of bucket counts and indices `i ≤ j`, when the bucket
counts at indices `0..j` sum to less than `2 ^ 64` (the `uint64` accumulator does not wrap
around), the cumulative count `enqueueHistogram` computes for bucket point `i` is at most
the one it computes for bucket point `j`. -/
theorem cumulativeBucketCount_mono_of_no_wrap (bucketCounts : List Nat) (i j : Nat)
    (hij : i ≤ j) (hsum : (bucketCounts.take (j + 1)).sum < 2 ^ 64) :
    cumulativeBucketCount bucketCounts i ≤ cumulativeBucketCount bucketCounts j := by
  have hle : (bucketCounts.take (i + 1)).sum ≤ (bucketCounts.take (j + 1)).sum :=
    sum_take_le bucketCounts (i + 1) (j + 1) (Nat.succ_le_succ hij)
  rw [cumulativeBucketCount_eq, cumulativeBucketCount_eq,
    Nat.mod_eq_of_lt hsum, Nat.mod_eq_of_lt (Nat.lt_of_le_of_lt hle hsum)]
  exact hle

/-- C5, witness: the amended statement at the spec's example, bucket counts `[2, 3, 5]`,
for the first and the last bucket. -/
theorem cumulativeBucketCount_mono_of_no_wrap_witness :
    0 ≤ 2 ∧ (sampleHistogram.BucketCounts.take (2 + 1)).sum < 2 ^ 64 ∧
    cumulativeBucketCount sampleHistogram.BucketCounts 0 ≤
      cumulativeBucketCount sampleHistogram.BucketCounts 2 :=
  ⟨by decide, by decide,
    cumulativeBucketCount_mono_of_no_wrap sampleHistogram.BucketCounts 0 2 (by decide)
      (by decide)⟩

/-- C5, counterexample: for bucket counts `[2^64 - 1, 1]` against one explicit bound
(`B = E + 1`) the cumulative count computed for bucket point 0 is `2^64 - 1` and the one
computed for bucket point 1 is 0: the counts decrease. -/
theorem cumulativeBucketCount_decreases_on_wrap :
    sampleDecreasingHistogram.BucketCounts.length =
      sampleDecreasingHistogram.ExplicitBounds.length + 1 ∧
    cumulativeBucketCount sampleDecreasingHistogram.BucketCounts 0 = 18446744073709551615 ∧
    cumulativeBucketCount sampleDecreasingHistogram.BucketCounts 1 = 0 ∧
    ¬ (cumulativeBucketCount sampleDecreasingHistogram.BucketCounts 0 ≤
      cumulativeBucketCount sampleDecreasingHistogram.BucketCounts 1) ∧
    (enqueueHistogram sampleEnv sampleResource sampleScope "latency"
        [sampleDecreasingHistogram] acceptAll []).2.map
          (fun p => p.fields.get? "latency_bucket") =
      [none, some (.float64 ⟨0x43F0000000000000⟩), some (.float64 ⟨0⟩)] := by
  decide

/-! ## Field sets of the histogram points -/

theorem append_ne_append_of_ne (m a b : String) (h : a ≠ b) : m ++ a ≠ m ++ b := by
  intro heq
  apply h
  have h2 := congrArg String.data heq
  rw [String.data_append, String.data_append] at h2
  exact String.ext (List.append_cancel_left h2)

theorem initFields_get?_of_ne (env : Env) (dp : basicDataPoint) (k : String)
    (hk : env.AttributeStartTimeUnixNano ≠ k) : (initFields env dp).get? k = none := by
  unfold initFields
  split <;> simp [GoMap.get?_set, GoMap.get?, hk]

theorem histogramBaseFields_get? (m : String) (dp : HistogramDataPoint)
    (fields : GoMap FieldValue) (k : String) :
    (histogramBaseFields m dp fields).get? k =
      if dp.HasMax = true ∧ m ++ MetricHistogramMaxSuffix = k then some (.float64 dp.Max)
      else if dp.HasMin = true ∧ m ++ MetricHistogramMinSuffix = k then some (.float64 dp.Min)
      else if m ++ MetricHistogramSumSuffix = k then some (.float64 dp.Sum)
      else if m ++ MetricHistogramCountSuffix = k then
        some (.float64 (Float64.ofUInt64 dp.Count))
      else fields.get? k := by
  unfold histogramBaseFields
  cases dp.HasMin <;> cases dp.HasMax <;> simp [GoMap.get?_set, GoMap.clone]

/-- C6 (as amended): for a histogram data point that passes the timestamp check and has
`B = 0`, `B = E` or `B = E + 1`, and every `i < B`, the field set of the `i`-th bucket
point is the field set returned by `initMetricTagsAndTimestamp` (not that of the base
point) with the key `measurement ++ "_bucket"` set to the cumulative count: a bucket
point holds a key other than `measurement ++ "_bucket"` exactly when the initializer's
fields do, with the same value. -/
theorem enqueueHistogram_bucket_fields (env : Env) (resource : Resource)
    (scope : InstrumentationScope) (m : String) (dp : HistogramDataPoint)
    (rest : List HistogramDataPoint) (batch : Sink) (handed : List Point)
    (hts : (Timestamp.AsTime dp.Timestamp).IsZero = false)
    (hB : dp.BucketCounts.length = 0 ∨ dp.BucketCounts.length = dp.ExplicitBounds.length ∨
      dp.BucketCounts.length = dp.ExplicitBounds.length + 1)
    (i : Nat) (hi : i < dp.BucketCounts.length) :
    ∃ tags fields ts p,
      initMetricTagsAndTimestamp env resource scope dp.tobasicDataPoint =
        .ok (tags, fields, ts) ∧
      (enqueueHistogram env resource scope m (dp :: rest) acceptAll handed).2[
        handed.length + 1 + i]? = some p ∧
      (∀ q, (enqueueHistogram env resource scope m (dp :: rest) batch handed).2[
        handed.length + 1 + i]? = some q → q = p) ∧
      ∀ k, p.fields.get? k =
        if m ++ MetricHistogramBucketSuffix = k then
          some (.float64 (Float64.ofUInt64 (cumulativeBucketCount dp.BucketCounts i)))
        else fields.get? k := by
  obtain ⟨h1, h2⟩ :=
    enqueueHistogram_bucket_at env resource scope m dp rest batch handed hts hB i hi
  refine ⟨_, _, _, _, initMetricTagsAndTimestamp_ok env resource scope _ hts, h1, h2, ?_⟩
  intro k
  simp [histogramBucketPoint, GoMap.clone, GoMap.get?_set]

/-- C6, witness: the amended statement at the spec's example, for the first bucket. -/
theorem enqueueHistogram_bucket_fields_witness :
    ∃ tags fields ts p,
      initMetricTagsAndTimestamp sampleEnv sampleResource sampleScope
        sampleHistogram.tobasicDataPoint = .ok (tags, fields, ts) ∧
      (enqueueHistogram sampleEnv sampleResource sampleScope "latency" [sampleHistogram]
        acceptAll []).2[([] : List Point).length + 1 + 0]? = some p ∧
      (∀ q, (enqueueHistogram sampleEnv sampleResource sampleScope "latency"
        [sampleHistogram] acceptAll []).2[([] : List Point).length + 1 + 0]? = some q →
          q = p) ∧
      ∀ k, p.fields.get? k =
        if "latency" ++ MetricHistogramBucketSuffix = k then
          some (.float64 (Float64.ofUInt64
            (cumulativeBucketCount sampleHistogram.BucketCounts 0)))
        else fields.get? k :=
  enqueueHistogram_bucket_fields sampleEnv sampleResource sampleScope "latency"
    sampleHistogram [] acceptAll [] (by decide) (by decide) 0 (by decide)

/-- C6, counterexample: at the spec's example the base point holds the fields
`latency_count` and `latency_sum`, and the first bucket point holds neither of them: its
only field is `latency_bucket`. -/
theorem enqueueHistogram_bucket_point_lacks_count_sum :
    (Timestamp.AsTime sampleHistogram.Timestamp).IsZero = false ∧
    sampleHistogram.BucketCounts.length = sampleHistogram.ExplicitBounds.length + 1 ∧
    ((enqueueHistogram sampleEnv sampleResource sampleScope "latency" [sampleHistogram]
        acceptAll []).2[0]?).map (fun p => p.fields) =
      some [("latency_count", .float64 ⟨0x4024000000000000⟩),
        ("latency_sum", .float64 ⟨0x3FF0000000000000⟩)] ∧
    ((enqueueHistogram sampleEnv sampleResource sampleScope "latency" [sampleHistogram]
        acceptAll []).2[1]?).map (fun p => p.fields) =
      some [("latency_bucket", .float64 ⟨0x4000000000000000⟩)] ∧
    ((enqueueHistogram sampleEnv sampleResource sampleScope "latency" [sampleHistogram]
        acceptAll []).2[1]?).map (fun p => p.fields.get? "latency_count") = some none ∧
    ((enqueueHistogram sampleEnv sampleResource sampleScope "latency" [sampleHistogram]
        acceptAll []).2[1]?).map (fun p => p.fields.get? "latency_sum") = some none := by
  decide

/-- C7: for a histogram data point that passes the timestamp check, whatever the sink
and the bucket cardinality, the base point is handed to the sink first; it has value-kind
Histogram, the tags returned by `initMetricTagsAndTimestamp`, and the fields returned by
`initMetricTagsAndTimestamp` plus `measurement ++ "_count"` (the count as `float64`) and
`measurement ++ "_sum"` (the sum); it holds `measurement ++ "_min"` if and only if the data
point declares a min, and `measurement ++ "_max"` if and only if it declares a max, with
the declared values. The start-timestamp key, a constant of package `common` that the
initializer writes, is taken to differ from `measurement ++ "_min"` and
`measurement ++ "_max"`. -/
theorem enqueueHistogram_base_point (env : Env) (resource : Resource)
    (scope : InstrumentationScope) (m : String) (dp : HistogramDataPoint)
    (rest : List HistogramDataPoint) (batch : Sink) (handed : List Point)
    (hts : (Timestamp.AsTime dp.Timestamp).IsZero = false)
    (hmin : env.AttributeStartTimeUnixNano ≠ m ++ MetricHistogramMinSuffix)
    (hmax : env.AttributeStartTimeUnixNano ≠ m ++ MetricHistogramMaxSuffix) :
    ∃ tags fields ts base,
      initMetricTagsAndTimestamp env resource scope dp.tobasicDataPoint =
        .ok (tags, fields, ts) ∧
      (enqueueHistogram env resource scope m (dp :: rest) batch handed).2[handed.length]? =
        some base ∧
      base.vType = .Histogram ∧
      base.tags = tags ∧
      (∀ k, k ≠ m ++ MetricHistogramMinSuffix → k ≠ m ++ MetricHistogramMaxSuffix →
        base.fields.get? k =
          if m ++ MetricHistogramSumSuffix = k then some (.float64 dp.Sum)
          else if m ++ MetricHistogramCountSuffix = k then
            some (.float64 (Float64.ofUInt64 dp.Count))
          else fields.get? k) ∧
      ((base.fields.get? (m ++ MetricHistogramMinSuffix)).isSome = true ↔
        dp.HasMin = true) ∧
      (dp.HasMin = true →
        base.fields.get? (m ++ MetricHistogramMinSuffix) = some (.float64 dp.Min)) ∧
      ((base.fields.get? (m ++ MetricHistogramMaxSuffix)).isSome = true ↔
        dp.HasMax = true) ∧
      (dp.HasMax = true →
        base.fields.get? (m ++ MetricHistogramMaxSuffix) = some (.float64 dp.Max)) := by
  have hMinMax : m ++ MetricHistogramMaxSuffix ≠ m ++ MetricHistogramMinSuffix :=
    append_ne_append_of_ne m _ _ (by decide)
  have hMinSum : m ++ MetricHistogramSumSuffix ≠ m ++ MetricHistogramMinSuffix :=
    append_ne_append_of_ne m _ _ (by decide)
  have hMinCount : m ++ MetricHistogramCountSuffix ≠ m ++ MetricHistogramMinSuffix :=
    append_ne_append_of_ne m _ _ (by decide)
  have hMaxSum : m ++ MetricHistogramSumSuffix ≠ m ++ MetricHistogramMaxSuffix :=
    append_ne_append_of_ne m _ _ (by decide)
  have hMaxCount : m ++ MetricHistogramCountSuffix ≠ m ++ MetricHistogramMaxSuffix :=
    append_ne_append_of_ne m _ _ (by decide)
  have hMaxMin : m ++ MetricHistogramMinSuffix ≠ m ++ MetricHistogramMaxSuffix :=
    append_ne_append_of_ne m _ _ (by decide)
  have hfmin := initFields_get?_of_ne env dp.tobasicDataPoint _ hmin
  have hfmax := initFields_get?_of_ne env dp.tobasicDataPoint _ hmax
  refine ⟨_, _, _, _, initMetricTagsAndTimestamp_ok env resource scope _ hts,
    enqueueHistogram_base_at env resource scope m dp rest batch handed hts, rfl, rfl,
    ?_, ?_, ?_, ?_, ?_⟩
  · intro k hk1 hk2
    have hk1' : ¬ m ++ MetricHistogramMinSuffix = k := fun h => hk1 h.symm
    have hk2' : ¬ m ++ MetricHistogramMaxSuffix = k := fun h => hk2 h.symm
    simp [histogramBaseFields_get?, hk1', hk2']
  · simp only [histogramBaseFields_get?, hMinMax, hMinSum, hMinCount, hfmin, and_false,
      and_true, if_false]
    cases dp.HasMin <;> simp
  · intro h
    simp [histogramBaseFields_get?, hMinMax, h]
  · simp only [histogramBaseFields_get?, hMaxSum, hMaxCount, hMaxMin, hfmax, and_false,
      and_true, if_false]
    cases dp.HasMax <;> simp
  · intro h
    simp [histogramBaseFields_get?, h]

/-- C7, witness: the statement at the sample histogram with a start timestamp, a min and
a max, with the upstream start-timestamp key `start_time_unix_nano`. -/
theorem enqueueHistogram_base_point_witness :
    ∃ tags fields ts base,
      initMetricTagsAndTimestamp sampleEnv sampleResource sampleScope
        sampleMinMaxHistogram.tobasicDataPoint = .ok (tags, fields, ts) ∧
      (enqueueHistogram sampleEnv sampleResource sampleScope "latency"
        [sampleMinMaxHistogram] acceptAll []).2[([] : List Point).length]? = some base ∧
      base.vType = .Histogram ∧
      base.tags = tags ∧
      (∀ k, k ≠ "latency" ++ MetricHistogramMinSuffix →
        k ≠ "latency" ++ MetricHistogramMaxSuffix →
        base.fields.get? k =
          if "latency" ++ MetricHistogramSumSuffix = k then
            some (.float64 sampleMinMaxHistogram.Sum)
          else if "latency" ++ MetricHistogramCountSuffix = k then
            some (.float64 (Float64.ofUInt64 sampleMinMaxHistogram.Count))
          else fields.get? k) ∧
      ((base.fields.get? ("latency" ++ MetricHistogramMinSuffix)).isSome = true ↔
        sampleMinMaxHistogram.HasMin = true) ∧
      (sampleMinMaxHistogram.HasMin = true →
        base.fields.get? ("latency" ++ MetricHistogramMinSuffix) =
          some (.float64 sampleMinMaxHistogram.Min)) ∧
      ((base.fields.get? ("latency" ++ MetricHistogramMaxSuffix)).isSome = true ↔
        sampleMinMaxHistogram.HasMax = true) ∧
      (sampleMinMaxHistogram.HasMax = true →
        base.fields.get? ("latency" ++ MetricHistogramMaxSuffix) =
          some (.float64 sampleMinMaxHistogram.Max)) :=
  enqueueHistogram_base_point sampleEnv sampleResource sampleScope "latency"
    sampleMinMaxHistogram [] acceptAll [] (by decide) (by decide) (by decide)

/-! ## Summary points -/

theorem enqueueSummaryQuantiles_acceptAll (env : Env) (m : String) (tags : GoMap String)
    (fields : GoMap FieldValue) (ts : Time) (qs : List ValueAtQuantile)
    (handed : List Point) :
    enqueueSummaryQuantiles env m tags fields ts acceptAll qs handed =
      (none, handed ++ qs.map (summaryQuantilePoint env m tags fields ts)) := by
  induction qs generalizing handed with
  | nil => simp [enqueueSummaryQuantiles]
  | cons q qs ih => simp [enqueueSummaryQuantiles, EnqueuePoint, acceptAll, ih]

theorem enqueueSummaryQuantiles_log (env : Env) (m : String) (tags : GoMap String)
    (fields : GoMap FieldValue) (ts : Time) (batch : Sink) (qs : List ValueAtQuantile)
    (handed : List Point) :
    ∃ n, n ≤ qs.length ∧
      (enqueueSummaryQuantiles env m tags fields ts batch qs handed).2 =
        handed ++ (qs.take n).map (summaryQuantilePoint env m tags fields ts) ∧
      ((enqueueSummaryQuantiles env m tags fields ts batch qs handed).1 = none →
        n = qs.length) := by
  induction qs generalizing handed with
  | nil => exact ⟨0, by simp [enqueueSummaryQuantiles]⟩
  | cons q qs ih =>
    rw [enqueueSummaryQuantiles]
    simp only [EnqueuePoint]
    cases hb : batch handed (summaryQuantilePoint env m tags fields ts q) with
    | some err => exact ⟨1, by simp⟩
    | none =>
      obtain ⟨n, hn, hlog, hnone⟩ :=
        ih (handed ++ [summaryQuantilePoint env m tags fields ts q])
      refine ⟨n + 1, by simpa using hn, ?_, ?_⟩
      · simp [hlog]
      · intro h
        simp [hnone h]

theorem enqueueSummary_log (env : Env) (resource : Resource)
    (scope : InstrumentationScope) (m : String) (summary : List SummaryDataPoint)
    (batch : Sink) (handed : List Point) :
    ∃ suffix, (enqueueSummary env resource scope m summary batch handed).2 =
      handed ++ suffix := by
  induction summary generalizing handed with
  | nil => exact ⟨[], by simp [enqueueSummary]⟩
  | cons dp rest ih =>
    rw [enqueueSummary]
    cases hinit : initMetricTagsAndTimestamp env resource scope dp.tobasicDataPoint with
    | error err => exact ⟨[], by simp⟩
    | ok v =>
      obtain ⟨tags, fields, ts⟩ := v
      simp only [EnqueuePoint]
      cases hb : batch handed ⟨MeasurementPrometheus, tags,
          summaryBaseFields m dp fields, ts, .Summary⟩ with
      | some err => exact ⟨[_], rfl⟩
      | none =>
        simp only []
        obtain ⟨n, -, hlog, -⟩ := enqueueSummaryQuantiles_log env m tags fields ts batch
          dp.QuantileValues
          (handed ++ [⟨MeasurementPrometheus, tags, summaryBaseFields m dp fields, ts,
            .Summary⟩])
        split
        · rename_i err handed' heq
          have : handed' = _ := (congrArg Prod.snd heq).symm.trans hlog
          exact ⟨_, by rw [this, List.append_assoc]⟩
        · rename_i handed' heq
          have : handed' = _ := (congrArg Prod.snd heq).symm.trans hlog
          obtain ⟨suffix, hs⟩ := ih handed'
          exact ⟨_, by rw [hs, this, List.append_assoc, List.append_assoc]⟩

theorem enqueueSummary_cons_acceptAll (env : Env) (resource : Resource)
    (scope : InstrumentationScope) (m : String) (dp : SummaryDataPoint)
    (rest : List SummaryDataPoint) (handed : List Point)
    (hts : (Timestamp.AsTime dp.Timestamp).IsZero = false) :
    enqueueSummary env resource scope m (dp :: rest) acceptAll handed =
      enqueueSummary env resource scope m rest acceptAll
        (handed ++
          (⟨MeasurementPrometheus, initTags env resource scope dp.tobasicDataPoint,
              summaryBaseFields m dp (initFields env dp.tobasicDataPoint),
              Timestamp.AsTime dp.Timestamp, .Summary⟩ ::
            dp.QuantileValues.map
              (summaryQuantilePoint env m (initTags env resource scope dp.tobasicDataPoint)
                (initFields env dp.tobasicDataPoint) (Timestamp.AsTime dp.Timestamp)))) := by
  rw [enqueueSummary, initMetricTagsAndTimestamp_ok _ _ _ _ hts]
  simp only [EnqueuePoint, acceptAll, enqueueSummaryQuantiles_acceptAll]
  simp

theorem enqueueSummary_cons_log (env : Env) (resource : Resource)
    (scope : InstrumentationScope) (m : String) (dp : SummaryDataPoint)
    (rest : List SummaryDataPoint) (batch : Sink) (handed : List Point)
    (hts : (Timestamp.AsTime dp.Timestamp).IsZero = false) :
    ∃ n more, n ≤ dp.QuantileValues.length ∧
      (enqueueSummary env resource scope m (dp :: rest) batch handed).2 =
        handed ++
          (⟨MeasurementPrometheus, initTags env resource scope dp.tobasicDataPoint,
              summaryBaseFields m dp (initFields env dp.tobasicDataPoint),
              Timestamp.AsTime dp.Timestamp, .Summary⟩ ::
            (dp.QuantileValues.take n).map
              (summaryQuantilePoint env m (initTags env resource scope dp.tobasicDataPoint)
                (initFields env dp.tobasicDataPoint) (Timestamp.AsTime dp.Timestamp))) ++
          more ∧
      (n < dp.QuantileValues.length → more = []) := by
  rw [enqueueSummary, initMetricTagsAndTimestamp_ok _ _ _ _ hts]
  simp only [EnqueuePoint]
  cases hb : batch handed ⟨MeasurementPrometheus,
      initTags env resource scope dp.tobasicDataPoint,
      summaryBaseFields m dp (initFields env dp.tobasicDataPoint),
      Timestamp.AsTime dp.Timestamp, .Summary⟩ with
  | some err => exact ⟨0, [], Nat.zero_le _, by simp, fun _ => rfl⟩
  | none =>
    simp only []
    obtain ⟨n, hn, hlog, hnone⟩ := enqueueSummaryQuantiles_log env m
      (initTags env resource scope dp.tobasicDataPoint) (initFields env dp.tobasicDataPoint)
      (Timestamp.AsTime dp.Timestamp) batch dp.QuantileValues
      (handed ++ [⟨MeasurementPrometheus, initTags env resource scope dp.tobasicDataPoint,
        summaryBaseFields m dp (initFields env dp.tobasicDataPoint),
        Timestamp.AsTime dp.Timestamp, .Summary⟩])
    split
    · rename_i err handed' heq
      have h2 : handed' = _ := (congrArg Prod.snd heq).symm.trans hlog
      exact ⟨n, [], hn, by simp [h2], fun _ => rfl⟩
    · rename_i handed' heq
      have h2 : handed' = _ := (congrArg Prod.snd heq).symm.trans hlog
      have h1 : n = dp.QuantileValues.length := hnone (congrArg Prod.fst heq)
      obtain ⟨suffix, hs⟩ := enqueueSummary_log env resource scope m rest batch handed'
      refine ⟨n, suffix, hn, ?_, fun h => absurd h1 (Nat.ne_of_lt h)⟩
      rw [hs, h2]
      simp

theorem enqueueSummary_quantile_at (env : Env) (resource : Resource)
    (scope : InstrumentationScope) (m : String) (dp : SummaryDataPoint)
    (rest : List SummaryDataPoint) (batch : Sink) (handed : List Point)
    (hts : (Timestamp.AsTime dp.Timestamp).IsZero = false)
    (j : Nat) (hj : j < dp.QuantileValues.length) :
    (enqueueSummary env resource scope m (dp :: rest) acceptAll handed).2[
        handed.length + 1 + j]? =
      some (summaryQuantilePoint env m (initTags env resource scope dp.tobasicDataPoint)
        (initFields env dp.tobasicDataPoint) (Timestamp.AsTime dp.Timestamp)
        dp.QuantileValues[j]) ∧
    ∀ p, (enqueueSummary env resource scope m (dp :: rest) batch handed).2[
        handed.length + 1 + j]? = some p →
      p = summaryQuantilePoint env m (initTags env resource scope dp.tobasicDataPoint)
        (initFields env dp.tobasicDataPoint) (Timestamp.AsTime dp.Timestamp)
        dp.QuantileValues[j] := by
  constructor
  · rw [enqueueSummary_cons_acceptAll env resource scope m dp rest handed hts]
    obtain ⟨suffix, hs⟩ := enqueueSummary_log env resource scope m rest acceptAll
      (handed ++
          (⟨MeasurementPrometheus, initTags env resource scope dp.tobasicDataPoint,
              summaryBaseFields m dp (initFields env dp.tobasicDataPoint),
              Timestamp.AsTime dp.Timestamp, .Summary⟩ ::
            dp.QuantileValues.map
              (summaryQuantilePoint env m (initTags env resource scope dp.tobasicDataPoint)
                (initFields env dp.tobasicDataPoint) (Timestamp.AsTime dp.Timestamp))))
    rw [hs, List.append_assoc, Nat.add_assoc, List.getElem?_append_right (Nat.le_add_right _ _),
      Nat.add_sub_cancel_left, Nat.add_comm 1 j, List.cons_append, List.getElem?_cons_succ,
      List.getElem?_append_left (by simpa using hj), List.getElem?_map,
      List.getElem?_eq_getElem hj]
    rfl
  · intro p hp
    obtain ⟨n, more, hn, hlog, hmore⟩ :=
      enqueueSummary_cons_log env resource scope m dp rest batch handed hts
    rw [hlog, List.append_assoc, Nat.add_assoc,
      List.getElem?_append_right (Nat.le_add_right _ _),
      Nat.add_sub_cancel_left, Nat.add_comm 1 j, List.cons_append,
      List.getElem?_cons_succ] at hp
    by_cases hjn : j < n
    · rw [List.getElem?_append_left (by simp; omega), List.getElem?_map,
        List.getElem?_take_of_lt hjn, List.getElem?_eq_getElem hj] at hp
      exact (Option.some.inj hp).symm
    · have : more = [] := hmore (by omega)
      rw [this, List.append_nil, List.getElem?_eq_none (by simp; omega)] at hp
      cases hp

/-- C8: for a summary whose data points all pass the timestamp check, and a sink that
accepts every point, `enqueueSummary` returns no error and hands to the sink, data point
after data point in source order, the base point and then one point per quantile entry in
the order of the entries: `1 + Q` points for a data point with `Q` entries, each with
value-kind Summary. -/
theorem enqueueSummary_emits_base_then_quantiles (env : Env) (resource : Resource)
    (scope : InstrumentationScope) (m : String) (summary : List SummaryDataPoint)
    (handed : List Point)
    (hts : ∀ dp ∈ summary, (Timestamp.AsTime dp.Timestamp).IsZero = false) :
    enqueueSummary env resource scope m summary acceptAll handed =
      (none, handed ++ summary.flatMap (fun dp =>
        ⟨MeasurementPrometheus, initTags env resource scope dp.tobasicDataPoint,
            summaryBaseFields m dp (initFields env dp.tobasicDataPoint),
            Timestamp.AsTime dp.Timestamp, .Summary⟩ ::
          dp.QuantileValues.map
            (summaryQuantilePoint env m (initTags env resource scope dp.tobasicDataPoint)
              (initFields env dp.tobasicDataPoint) (Timestamp.AsTime dp.Timestamp)))) ∧
    (∀ dp ∈ summary,
      ((⟨MeasurementPrometheus, initTags env resource scope dp.tobasicDataPoint,
            summaryBaseFields m dp (initFields env dp.tobasicDataPoint),
            Timestamp.AsTime dp.Timestamp, .Summary⟩ : Point) ::
          dp.QuantileValues.map
            (summaryQuantilePoint env m (initTags env resource scope dp.tobasicDataPoint)
              (initFields env dp.tobasicDataPoint) (Timestamp.AsTime dp.Timestamp))).length =
        1 + dp.QuantileValues.length) ∧
    (∀ p ∈ summary.flatMap (fun dp =>
        (⟨MeasurementPrometheus, initTags env resource scope dp.tobasicDataPoint,
            summaryBaseFields m dp (initFields env dp.tobasicDataPoint),
            Timestamp.AsTime dp.Timestamp, .Summary⟩ : Point) ::
          dp.QuantileValues.map
            (summaryQuantilePoint env m (initTags env resource scope dp.tobasicDataPoint)
              (initFields env dp.tobasicDataPoint) (Timestamp.AsTime dp.Timestamp))),
      p.vType = .Summary) := by
  refine ⟨?_, ?_, ?_⟩
  · induction summary generalizing handed with
    | nil => simp [enqueueSummary]
    | cons dp rest ih =>
      rw [enqueueSummary_cons_acceptAll env resource scope m dp rest handed
        (hts dp (List.mem_cons_self dp rest)),
        ih _ (fun d hd => hts d (List.mem_cons_of_mem dp hd))]
      simp
  · intro dp _
    simp [Nat.add_comm]
  · intro p hp
    rw [List.mem_flatMap] at hp
    obtain ⟨dp, -, hp⟩ := hp
    rcases List.mem_cons.1 hp with rfl | hp
    · rfl
    · obtain ⟨q, -, rfl⟩ := List.mem_map.1 hp
      rfl

/-- C8, witness: the statement at a summary of two copies of the sample data point, which
has two quantile entries. -/
theorem enqueueSummary_emits_base_then_quantiles_witness :
    (enqueueSummary sampleEnv sampleResource sampleScope "rpc" [sampleSummary, sampleSummary]
        acceptAll []).1 = none ∧
    (enqueueSummary sampleEnv sampleResource sampleScope "rpc" [sampleSummary, sampleSummary]
        acceptAll []).2.length = (1 + 2) + (1 + 2) ∧
    (enqueueSummary sampleEnv sampleResource sampleScope "rpc" [sampleSummary, sampleSummary]
        acceptAll []).2.map (fun p => p.tags.get? "quantile") =
      [none, some "0.5", some "0.99", none, some "0.5", some "0.99"] := by
  have h := enqueueSummary_emits_base_then_quantiles sampleEnv sampleResource sampleScope
    "rpc" [sampleSummary, sampleSummary] []
    (by intro dp hdp; simp at hdp; subst hdp; decide)
  rw [h.1]
  decide

/-- C9 (as amended): for a summary data point that passes the timestamp check and its
`j`-th quantile entry `(q, v)`: with a sink that accepts every point the point of that
entry is handed to the sink right after the base point and the points of the earlier
entries, with any sink nothing else is ever handed at that position; its field set is the
field set returned by `initMetricTagsAndTimestamp` (not that of the base point) with the
key `measurement` set to `v`, and its tag set is the tag set returned by
`initMetricTagsAndTimestamp`, which is the base point's, with the quantile key set to the
formatted `q`. -/
theorem enqueueSummary_quantile_point (env : Env) (resource : Resource)
    (scope : InstrumentationScope) (m : String) (dp : SummaryDataPoint)
    (rest : List SummaryDataPoint) (batch : Sink) (handed : List Point)
    (hts : (Timestamp.AsTime dp.Timestamp).IsZero = false)
    (j : Nat) (hj : j < dp.QuantileValues.length) :
    ∃ tags fields ts p,
      initMetricTagsAndTimestamp env resource scope dp.tobasicDataPoint =
        .ok (tags, fields, ts) ∧
      (enqueueSummary env resource scope m (dp :: rest) acceptAll handed).2[
        handed.length + 1 + j]? = some p ∧
      (∀ q, (enqueueSummary env resource scope m (dp :: rest) batch handed).2[
        handed.length + 1 + j]? = some q → q = p) ∧
      (∀ k, p.fields.get? k =
        if m = k then some (.float64 dp.QuantileValues[j].Value) else fields.get? k) ∧
      (∀ k, p.tags.get? k =
        if env.MetricSummaryQuantileKeyV2 = k then
          some (env.FormatFloat dp.QuantileValues[j].Quantile)
        else tags.get? k) ∧
      ((enqueueSummary env resource scope m (dp :: rest) batch handed).2[
        handed.length]?).map (fun base => base.tags) = some tags := by
  obtain ⟨h1, h2⟩ :=
    enqueueSummary_quantile_at env resource scope m dp rest batch handed hts j hj
  refine ⟨_, _, _, _, initMetricTagsAndTimestamp_ok env resource scope _ hts, h1, h2,
    ?_, ?_, ?_⟩
  · intro k
    simp [summaryQuantilePoint, GoMap.clone, GoMap.get?_set]
  · intro k
    simp [summaryQuantilePoint, GoMap.clone, GoMap.get?_set]
  · obtain ⟨n, more, -, hlog, -⟩ :=
      enqueueSummary_cons_log env resource scope m dp rest batch handed hts
    rw [hlog, List.append_assoc, List.getElem?_append_right (Nat.le_refl _), Nat.sub_self]
    simp

/-- C9, witness: the amended statement at the sample summary data point, for its second
quantile entry. -/
theorem enqueueSummary_quantile_point_witness :
    ∃ tags fields ts p,
      initMetricTagsAndTimestamp sampleEnv sampleResource sampleScope
        sampleSummary.tobasicDataPoint = .ok (tags, fields, ts) ∧
      (enqueueSummary sampleEnv sampleResource sampleScope "rpc" [sampleSummary]
        acceptAll []).2[([] : List Point).length + 1 + 1]? = some p ∧
      (∀ q, (enqueueSummary sampleEnv sampleResource sampleScope "rpc" [sampleSummary]
        acceptAll []).2[([] : List Point).length + 1 + 1]? = some q → q = p) ∧
      (∀ k, p.fields.get? k =
        if "rpc" = k then
          some (.float64 (sampleSummary.QuantileValues.get ⟨1, by decide⟩).Value)
        else fields.get? k) ∧
      (∀ k, p.tags.get? k =
        if sampleEnv.MetricSummaryQuantileKeyV2 = k then
          some (sampleEnv.FormatFloat
            (sampleSummary.QuantileValues.get ⟨1, by decide⟩).Quantile)
        else tags.get? k) ∧
      ((enqueueSummary sampleEnv sampleResource sampleScope "rpc" [sampleSummary]
        acceptAll []).2[([] : List Point).length]?).map (fun base => base.tags) =
          some tags :=
  enqueueSummary_quantile_point sampleEnv sampleResource sampleScope "rpc" sampleSummary []
    acceptAll [] (by decide) 1 (by decide)

/-- C9, counterexample: at the sample summary data point the base point holds the fields
`rpc_count` and `rpc_sum`, and the point of the first quantile entry holds neither of
them: its only field is `rpc`. -/
theorem enqueueSummary_quantile_point_lacks_count_sum :
    (Timestamp.AsTime sampleSummary.Timestamp).IsZero = false ∧
    ((enqueueSummary sampleEnv sampleResource sampleScope "rpc" [sampleSummary]
        acceptAll []).2[0]?).map (fun p => p.fields) =
      some [("rpc_count", .float64 ⟨0x4008000000000000⟩),
        ("rpc_sum", .float64 ⟨0x3FF0000000000000⟩)] ∧
    ((enqueueSummary sampleEnv sampleResource sampleScope "rpc" [sampleSummary]
        acceptAll []).2[1]?).map (fun p => p.fields) =
      some [("rpc", .float64 ⟨0x3FB999999999999A⟩)] ∧
    ((enqueueSummary sampleEnv sampleResource sampleScope "rpc" [sampleSummary]
        acceptAll []).2[1]?).map (fun p => p.fields.get? "rpc_count") = some none ∧
    ((enqueueSummary sampleEnv sampleResource sampleScope "rpc" [sampleSummary]
        acceptAll []).2[1]?).map (fun p => p.fields.get? "rpc_sum") = some none := by
  decide

/-! ## Gauge points -/

theorem enqueueGauge_cons_empty (env : Env) (resource : Resource)
    (scope : InstrumentationScope) (m : String) (dp : NumberDataPoint)
    (rest : List NumberDataPoint) (batch : Sink) (handed : List Point)
    (hts : (Timestamp.AsTime dp.Timestamp).IsZero = false) (hv : dp.Value = .Empty) :
    enqueueGauge env resource scope m (dp :: rest) batch handed =
      enqueueGauge env resource scope m rest batch handed := by
  rw [enqueueGauge, initMetricTagsAndTimestamp_ok _ _ _ _ hts]
  simp [hv]

theorem enqueueGauge_cons_acceptAll_double (env : Env) (resource : Resource)
    (scope : InstrumentationScope) (m : String) (dp : NumberDataPoint)
    (rest : List NumberDataPoint) (handed : List Point) (v : Float64)
    (hts : (Timestamp.AsTime dp.Timestamp).IsZero = false) (hv : dp.Value = .Double v) :
    enqueueGauge env resource scope m (dp :: rest) acceptAll handed =
      enqueueGauge env resource scope m rest acceptAll
        (handed ++ [⟨MeasurementPrometheus, initTags env resource scope dp.tobasicDataPoint,
          (initFields env dp.tobasicDataPoint).set m (.float64 v),
          Timestamp.AsTime dp.Timestamp, .Gauge⟩]) := by
  rw [enqueueGauge, initMetricTagsAndTimestamp_ok _ _ _ _ hts]
  simp [hv, EnqueuePoint, acceptAll]

theorem enqueueGauge_cons_acceptAll_int (env : Env) (resource : Resource)
    (scope : InstrumentationScope) (m : String) (dp : NumberDataPoint)
    (rest : List NumberDataPoint) (handed : List Point) (v : Int)
    (hts : (Timestamp.AsTime dp.Timestamp).IsZero = false) (hv : dp.Value = .Int v) :
    enqueueGauge env resource scope m (dp :: rest) acceptAll handed =
      enqueueGauge env resource scope m rest acceptAll
        (handed ++ [⟨MeasurementPrometheus, initTags env resource scope dp.tobasicDataPoint,
          (initFields env dp.tobasicDataPoint).set m (.int64 v),
          Timestamp.AsTime dp.Timestamp, .Gauge⟩]) := by
  rw [enqueueGauge, initMetricTagsAndTimestamp_ok _ _ _ _ hts]
  simp [hv, EnqueuePoint, acceptAll]

theorem enqueueGauge_cons_acceptAll (env : Env) (resource : Resource)
    (scope : InstrumentationScope) (m : String) (dp : NumberDataPoint)
    (rest : List NumberDataPoint) (handed : List Point)
    (hts : (Timestamp.AsTime dp.Timestamp).IsZero = false) (hv : dp.Value ≠ .Empty) :
    ∃ p, enqueueGauge env resource scope m (dp :: rest) acceptAll handed =
      enqueueGauge env resource scope m rest acceptAll (handed ++ [p]) := by
  cases hval : dp.Value with
  | Empty => exact absurd hval hv
  | Double v =>
    exact ⟨_, enqueueGauge_cons_acceptAll_double env resource scope m dp rest handed v hts hval⟩
  | Int v =>
    exact ⟨_, enqueueGauge_cons_acceptAll_int env resource scope m dp rest handed v hts hval⟩

/-- C10: for a gauge whose data points all pass the timestamp check, and a sink that
accepts every point, `enqueueGauge` returns no error and the number of points it hands to
the sink is the number of data points whose value type is not `Empty`; a data point with an
`Empty` value that passes the timestamp check is skipped, for every sink, without a point
and without an error. -/
theorem enqueueGauge_point_count (env : Env) (resource : Resource)
    (scope : InstrumentationScope) (m : String) (gauge : List NumberDataPoint)
    (handed : List Point)
    (hts : ∀ dp ∈ gauge, (Timestamp.AsTime dp.Timestamp).IsZero = false) :
    (enqueueGauge env resource scope m gauge acceptAll handed).1 = none ∧
    (enqueueGauge env resource scope m gauge acceptAll handed).2.length =
      handed.length + gauge.countP (fun dp => decide (dp.Value ≠ .Empty)) ∧
    (∀ (dp : NumberDataPoint) (rest : List NumberDataPoint) (batch : Sink)
      (before : List Point),
      (Timestamp.AsTime dp.Timestamp).IsZero = false → dp.Value = .Empty →
      enqueueGauge env resource scope m (dp :: rest) batch before =
        enqueueGauge env resource scope m rest batch before) := by
  refine ⟨?_, ?_, fun dp rest batch before h1 h2 =>
    enqueueGauge_cons_empty env resource scope m dp rest batch before h1 h2⟩
  · induction gauge generalizing handed with
    | nil => simp [enqueueGauge]
    | cons dp rest ih =>
      have hdp := hts dp (List.mem_cons_self dp rest)
      have hrest : ∀ d ∈ rest, (Timestamp.AsTime d.Timestamp).IsZero = false :=
        fun d hd => hts d (List.mem_cons_of_mem dp hd)
      by_cases hv : dp.Value = .Empty
      · rw [enqueueGauge_cons_empty env resource scope m dp rest acceptAll handed hdp hv]
        exact ih handed hrest
      · obtain ⟨p, hp⟩ := enqueueGauge_cons_acceptAll env resource scope m dp rest handed hdp hv
        rw [hp]
        exact ih _ hrest
  · induction gauge generalizing handed with
    | nil => simp [enqueueGauge]
    | cons dp rest ih =>
      have hdp := hts dp (List.mem_cons_self dp rest)
      have hrest : ∀ d ∈ rest, (Timestamp.AsTime d.Timestamp).IsZero = false :=
        fun d hd => hts d (List.mem_cons_of_mem dp hd)
      by_cases hv : dp.Value = .Empty
      · rw [enqueueGauge_cons_empty env resource scope m dp rest acceptAll handed hdp hv,
          ih handed hrest, List.countP_cons_of_neg]
        simp [hv]
      · obtain ⟨p, hp⟩ := enqueueGauge_cons_acceptAll env resource scope m dp rest handed hdp hv
        rw [hp, ih _ hrest, List.countP_cons_of_pos]
        · simp [Nat.add_assoc, Nat.add_comm 1]
        · simp [hv]

/-- C10, witness: the statement at a gauge of three data points, the spec's example, one
without a value and one with an integer value. -/
theorem enqueueGauge_point_count_witness :
    (∀ dp ∈ [sampleGaugePoint, sampleEmptyGaugePoint, sampleIntGaugePoint],
      (Timestamp.AsTime dp.Timestamp).IsZero = false) ∧
    ((enqueueGauge sampleEnv sampleResource sampleScope "cpu_usage"
        [sampleGaugePoint, sampleEmptyGaugePoint, sampleIntGaugePoint] acceptAll []).1 =
      none ∧
    (enqueueGauge sampleEnv sampleResource sampleScope "cpu_usage"
        [sampleGaugePoint, sampleEmptyGaugePoint, sampleIntGaugePoint] acceptAll []).2.length =
      ([] : List Point).length +
        [sampleGaugePoint, sampleEmptyGaugePoint, sampleIntGaugePoint].countP
          (fun dp => decide (dp.Value ≠ .Empty)) ∧
    (∀ (dp : NumberDataPoint) (rest : List NumberDataPoint) (batch : Sink)
      (before : List Point),
      (Timestamp.AsTime dp.Timestamp).IsZero = false → dp.Value = .Empty →
      enqueueGauge sampleEnv sampleResource sampleScope "cpu_usage" (dp :: rest) batch
          before =
        enqueueGauge sampleEnv sampleResource sampleScope "cpu_usage" rest batch before)) :=
  ⟨by decide,
    enqueueGauge_point_count sampleEnv sampleResource sampleScope "cpu_usage"
      [sampleGaugePoint, sampleEmptyGaugePoint, sampleIntGaugePoint] [] (by decide)⟩

/-! ## Handing a list of points to the sink -/

theorem enqueuePoints_acceptAll (what : String) (C : List Point) (E : Option Error)
    (h : List Point) : enqueuePoints what acceptAll C E h = (E, h ++ C) := by
  induction C generalizing h with
  | nil => simp [enqueuePoints]
  | cons c cs ih => simp [enqueuePoints, EnqueuePoint, acceptAll, ih]

theorem enqueuePoints_prefix (what : String) (batch : Sink) (C : List Point)
    (E : Option Error) (h : List Point) :
    ∃ n, n ≤ C.length ∧ (enqueuePoints what batch C E h).2 = h ++ C.take n ∧
      ((enqueuePoints what batch C E h).1 = none → n = C.length ∧ E = none) := by
  induction C generalizing h with
  | nil => exact ⟨0, by simp [enqueuePoints]⟩
  | cons c cs ih =>
    rw [enqueuePoints]
    simp only [EnqueuePoint]
    cases hb : batch h c with
    | some err => exact ⟨1, by simp⟩
    | none =>
      obtain ⟨n, hn, hlog, hnone⟩ := ih (h ++ [c])
      refine ⟨n + 1, by simpa using hn, by simp [hlog], ?_⟩
      intro h0
      have := hnone h0
      exact ⟨by simp [this.1], this.2⟩

theorem enqueuePoints_append (what : String) (batch : Sink) (C1 C2 : List Point)
    (E : Option Error) (h : List Point) :
    enqueuePoints what batch (C1 ++ C2) E h =
      if (enqueuePoints what batch C1 none h).1 = none then
        enqueuePoints what batch C2 E (enqueuePoints what batch C1 none h).2
      else enqueuePoints what batch C1 none h := by
  induction C1 generalizing h with
  | nil => simp [enqueuePoints]
  | cons c cs ih =>
    simp only [List.cons_append, enqueuePoints, EnqueuePoint]
    cases hb : batch h c with
    | some err => simp
    | none => simp [ih]

theorem enqueuePoints_rejected_last (what : String) (batch : Sink) (C : List Point)
    (E : Option Error) (h pre post : List Point) (p : Point)
    (hlog : (enqueuePoints what batch C E h).2 = h ++ (pre ++ p :: post))
    (hrej : batch (h ++ pre) p ≠ none) :
    post = [] ∧ (enqueuePoints what batch C E h).1 ≠ none := by
  induction C generalizing h pre with
  | nil =>
    simp [enqueuePoints] at hlog
  | cons c cs ih =>
    rw [enqueuePoints] at hlog ⊢
    simp only [EnqueuePoint] at hlog ⊢
    cases hb : batch h c with
    | some err =>
      rw [hb] at hlog
      simp only [List.append_cancel_left_eq] at hlog
      cases pre with
      | nil =>
        simp at hlog
        exact ⟨hlog.2, by simp⟩
      | cons a pre' =>
        simp at hlog
    | none =>
      rw [hb] at hlog
      simp only [] at hlog ⊢
      obtain ⟨n, -, hpre, -⟩ := enqueuePoints_prefix what batch cs E (h ++ [c])
      cases pre with
      | nil =>
        rw [hpre] at hlog
        simp at hlog
        rw [List.append_nil, ← hlog.1] at hrej
        exact absurd hb hrej
      | cons a pre' =>
        have ha : a = c := by
          rw [hpre] at hlog
          simp at hlog
          exact hlog.1.symm
        subst ha
        apply ih (h ++ [a]) pre'
        · rw [hlog]
          simp
        · simpa using hrej

/-! ## The expanders as lists of points -/

theorem enqueueGauge_eq (env : Env) (resource : Resource) (scope : InstrumentationScope)
    (m : String) (l : List NumberDataPoint) (batch : Sink) (handed : List Point) :
    enqueueGauge env resource scope m l batch handed =
      enqueueNumberDataPoints env resource scope m .Gauge "gauge" l batch handed := by
  induction l generalizing handed with
  | nil => rfl
  | cons dp rest ih =>
    rw [enqueueGauge, enqueueNumberDataPoints]
    simp only [ih]

theorem enqueueGaugeFromSum_eq (env : Env) (resource : Resource)
    (scope : InstrumentationScope) (m : String) (l : List NumberDataPoint) (batch : Sink)
    (handed : List Point) :
    enqueueGaugeFromSum env resource scope m l batch handed =
      enqueueNumberDataPoints env resource scope m .Gauge "sum (as gauge)" l batch handed := by
  induction l generalizing handed with
  | nil => rfl
  | cons dp rest ih =>
    rw [enqueueGaugeFromSum, enqueueNumberDataPoints]
    simp only [ih]

theorem enqueueSum_eq (env : Env) (resource : Resource) (scope : InstrumentationScope)
    (m : String) (l : List NumberDataPoint) (batch : Sink) (handed : List Point) :
    enqueueSum env resource scope m l batch handed =
      enqueueNumberDataPoints env resource scope m .Sum "sum" l batch handed := by
  induction l generalizing handed with
  | nil => rfl
  | cons dp rest ih =>
    rw [enqueueSum, enqueueNumberDataPoints]
    simp only [ih]

theorem initMetricTagsAndTimestamp_eq_ok (env : Env) (resource : Resource)
    (scope : InstrumentationScope) (dp : basicDataPoint)
    (v : GoMap String × GoMap FieldValue × Time)
    (h : initMetricTagsAndTimestamp env resource scope dp = .ok v) :
    v = (initTags env resource scope dp, initFields env dp, Timestamp.AsTime dp.Timestamp) := by
  unfold initMetricTagsAndTimestamp at h
  simp only [] at h
  split at h
  · cases h
  · exact (Except.ok.inj h).symm

theorem GoMap.exists_get?_set {V : Type} (m : GoMap V) (k : String) (v : V) :
    ∃ k' v', (GoMap.set m k v).get? k' = some v' :=
  ⟨k, v, by simp [GoMap.get?_set]⟩

theorem initFields_get?_ne_none (env : Env) (dp : basicDataPoint) (k : String)
    (h : (initFields env dp).get? k ≠ none) : k = env.AttributeStartTimeUnixNano := by
  by_contra hk
  exact h (initFields_get?_of_ne env dp k (fun h' => hk h'.symm))

theorem builtFrom_number (env : Env) (resource : Resource) (scope : InstrumentationScope)
    (m : String) (dp : basicDataPoint) (v : FieldValue) (kind : InfluxMetricValueType) :
    builtFrom env resource scope m dp
      ⟨MeasurementPrometheus, initTags env resource scope dp, (initFields env dp).set m v,
        Timestamp.AsTime dp.Timestamp, kind⟩ := by
  refine ⟨rfl, rfl, Or.inl rfl, GoMap.exists_get?_set _ _ _, ?_⟩
  intro k hk
  simp only [GoMap.get?_set] at hk
  split at hk
  · rename_i h
    simp [fieldKeys, h]
  · simp [fieldKeys, initFields_get?_ne_none env dp k hk]

theorem builtFrom_histogramBase (env : Env) (resource : Resource)
    (scope : InstrumentationScope) (m : String) (dp : HistogramDataPoint) :
    builtFrom env resource scope m dp.tobasicDataPoint
      ⟨MeasurementPrometheus, initTags env resource scope dp.tobasicDataPoint,
        histogramBaseFields m dp (initFields env dp.tobasicDataPoint),
        Timestamp.AsTime dp.Timestamp, .Histogram⟩ := by
  refine ⟨rfl, rfl, Or.inl rfl, ?_, ?_⟩
  · unfold histogramBaseFields
    simp only []
    split
    · exact GoMap.exists_get?_set _ _ _
    · split
      · exact GoMap.exists_get?_set _ _ _
      · exact GoMap.exists_get?_set _ _ _
  · intro k hk
    simp only [histogramBaseFields_get?] at hk
    split at hk
    · rename_i h
      simp [fieldKeys, ← h.2]
    · split at hk
      · rename_i h
        simp [fieldKeys, ← h.2]
      · split at hk
        · rename_i h
          simp [fieldKeys, ← h]
        · split at hk
          · rename_i h
            simp [fieldKeys, ← h]
          · simp [fieldKeys, initFields_get?_ne_none env dp.tobasicDataPoint k hk]

theorem builtFrom_histogramBucket (env : Env) (resource : Resource)
    (scope : InstrumentationScope) (m : String) (dp : HistogramDataPoint) (i : Nat) :
    builtFrom env resource scope m dp.tobasicDataPoint
      (histogramBucketPoint env m (initTags env resource scope dp.tobasicDataPoint)
        (initFields env dp.tobasicDataPoint) (Timestamp.AsTime dp.Timestamp)
        dp.BucketCounts dp.ExplicitBounds i) := by
  refine ⟨rfl, rfl, Or.inr (Or.inl ⟨_, rfl⟩), GoMap.exists_get?_set _ _ _, ?_⟩
  intro k hk
  simp only [histogramBucketPoint, GoMap.clone, GoMap.get?_set] at hk
  split at hk
  · rename_i h
    simp [fieldKeys, ← h]
  · simp [fieldKeys, initFields_get?_ne_none env dp.tobasicDataPoint k hk]

theorem builtFrom_summaryBase (env : Env) (resource : Resource)
    (scope : InstrumentationScope) (m : String) (dp : SummaryDataPoint) :
    builtFrom env resource scope m dp.tobasicDataPoint
      ⟨MeasurementPrometheus, initTags env resource scope dp.tobasicDataPoint,
        summaryBaseFields m dp (initFields env dp.tobasicDataPoint),
        Timestamp.AsTime dp.Timestamp, .Summary⟩ := by
  refine ⟨rfl, rfl, Or.inl rfl, GoMap.exists_get?_set _ _ _, ?_⟩
  intro k hk
  simp only [summaryBaseFields, GoMap.clone, GoMap.get?_set] at hk
  split at hk
  · rename_i h
    simp [fieldKeys, ← h, MetricSummarySumSuffix, MetricHistogramSumSuffix]
  · split at hk
    · rename_i h
      simp [fieldKeys, ← h, MetricSummaryCountSuffix, MetricHistogramCountSuffix]
    · simp [fieldKeys, initFields_get?_ne_none env dp.tobasicDataPoint k hk]

theorem builtFrom_summaryQuantile (env : Env) (resource : Resource)
    (scope : InstrumentationScope) (m : String) (dp : SummaryDataPoint)
    (q : ValueAtQuantile) :
    builtFrom env resource scope m dp.tobasicDataPoint
      (summaryQuantilePoint env m (initTags env resource scope dp.tobasicDataPoint)
        (initFields env dp.tobasicDataPoint) (Timestamp.AsTime dp.Timestamp) q) := by
  refine ⟨rfl, rfl, Or.inr (Or.inr ⟨_, rfl⟩), GoMap.exists_get?_set _ _ _, ?_⟩
  intro k hk
  simp only [summaryQuantilePoint, GoMap.clone, GoMap.get?_set] at hk
  split at hk
  · rename_i h
    simp [fieldKeys, ← h]
  · simp [fieldKeys, initFields_get?_ne_none env dp.tobasicDataPoint k hk]

theorem builtFrom_kind (env : Env) (resource : Resource) (scope : InstrumentationScope)
    (m : String) (dp : basicDataPoint) (p : Point) (kind : InfluxMetricValueType)
    (h : builtFrom env resource scope m dp p) :
    builtFrom env resource scope m dp { p with vType := kind } := h

theorem enqueueNumberDataPoints_repr (env : Env) (resource : Resource)
    (scope : InstrumentationScope) (m : String) (l : List NumberDataPoint) :
    ∃ (C : List Point) (E : Option Error),
      (∀ kind what b h,
        enqueueNumberDataPoints env resource scope m kind what l b h =
          enqueuePoints what b (C.map (fun p => { p with vType := kind })) E h) ∧
      (∀ p ∈ C, ∃ dp ∈ l, builtFrom env resource scope m dp.tobasicDataPoint p) := by
  induction l with
  | nil => exact ⟨[], none, fun _ _ _ _ => rfl, by simp⟩
  | cons dp rest ih =>
    obtain ⟨Cr, Er, hr, hm⟩ := ih
    have hm' : ∀ p ∈ Cr, ∃ d ∈ dp :: rest,
        builtFrom env resource scope m d.tobasicDataPoint p := by
      intro p hp
      obtain ⟨d, hd, hb⟩ := hm p hp
      exact ⟨d, List.mem_cons_of_mem dp hd, hb⟩
    cases hinit : initMetricTagsAndTimestamp env resource scope dp.tobasicDataPoint with
    | error err =>
      exact ⟨[], some err, fun kind what b h => by
        rw [enqueueNumberDataPoints, hinit]
        rfl, by simp⟩
    | ok v =>
      have hv := initMetricTagsAndTimestamp_eq_ok env resource scope _ v hinit
      subst hv
      cases hval : dp.Value with
      | Empty =>
        exact ⟨Cr, Er, fun kind what b h => by
          rw [enqueueNumberDataPoints, hinit]
          simp [hval, hr], hm'⟩
      | Double x =>
        refine ⟨⟨MeasurementPrometheus, initTags env resource scope dp.tobasicDataPoint,
          (initFields env dp.tobasicDataPoint).set m (.float64 x),
          Timestamp.AsTime dp.Timestamp, .Gauge⟩ :: Cr, Er, fun kind what b h => ?_, ?_⟩
        · rw [enqueueNumberDataPoints, hinit]
          simp only [hval, List.map_cons, enqueuePoints, EnqueuePoint]
          cases hb : b h _ <;> simp [hr]
        · intro p hp
          rcases List.mem_cons.1 hp with rfl | hp
          · exact ⟨dp, List.mem_cons_self dp rest, builtFrom_number env resource scope m _ _ _⟩
          · exact hm' p hp
      | Int x =>
        refine ⟨⟨MeasurementPrometheus, initTags env resource scope dp.tobasicDataPoint,
          (initFields env dp.tobasicDataPoint).set m (.int64 x),
          Timestamp.AsTime dp.Timestamp, .Gauge⟩ :: Cr, Er, fun kind what b h => ?_, ?_⟩
        · rw [enqueueNumberDataPoints, hinit]
          simp only [hval, List.map_cons, enqueuePoints, EnqueuePoint]
          cases hb : b h _ <;> simp [hr]
        · intro p hp
          rcases List.mem_cons.1 hp with rfl | hp
          · exact ⟨dp, List.mem_cons_self dp rest, builtFrom_number env resource scope m _ _ _⟩
          · exact hm' p hp

theorem enqueueHistogramBuckets_repr (env : Env) (m : String) (tags : GoMap String)
    (fields : GoMap FieldValue) (ts : Time) (bc : List Nat) (eb : List Float64)
    (batch : Sink) (is : List Nat) (handed : List Point) :
    enqueueHistogramBuckets env m tags fields ts bc eb batch is handed =
      enqueuePoints "histogram" batch
        (is.map (histogramBucketPoint env m tags fields ts bc eb)) none handed := by
  induction is generalizing handed with
  | nil => rfl
  | cons i is ih =>
    rw [enqueueHistogramBuckets]
    simp only [List.map_cons, enqueuePoints, EnqueuePoint]
    cases hb : batch handed _ <;> simp [ih]

theorem enqueueSummaryQuantiles_repr (env : Env) (m : String) (tags : GoMap String)
    (fields : GoMap FieldValue) (ts : Time) (batch : Sink) (qs : List ValueAtQuantile)
    (handed : List Point) :
    enqueueSummaryQuantiles env m tags fields ts batch qs handed =
      enqueuePoints "summary" batch
        (qs.map (summaryQuantilePoint env m tags fields ts)) none handed := by
  induction qs generalizing handed with
  | nil => rfl
  | cons q qs ih =>
    rw [enqueueSummaryQuantiles]
    simp only [List.map_cons, enqueuePoints, EnqueuePoint]
    cases hb : batch handed _ <;> simp [ih]

theorem enqueueHistogram_repr (env : Env) (resource : Resource)
    (scope : InstrumentationScope) (m : String) (l : List HistogramDataPoint) :
    ∃ (C : List Point) (E : Option Error),
      (∀ b h, enqueueHistogram env resource scope m l b h =
        enqueuePoints "histogram" b C E h) ∧
      (∀ p ∈ C, ∃ dp ∈ l, builtFrom env resource scope m dp.tobasicDataPoint p) := by
  induction l with
  | nil => exact ⟨[], none, fun _ _ => rfl, by simp⟩
  | cons dp rest ih =>
    obtain ⟨Cr, Er, hr, hm⟩ := ih
    have hm' : ∀ p ∈ Cr, ∃ d ∈ dp :: rest,
        builtFrom env resource scope m d.tobasicDataPoint p := by
      intro p hp
      obtain ⟨d, hd, hb⟩ := hm p hp
      exact ⟨d, List.mem_cons_of_mem dp hd, hb⟩
    cases hinit : initMetricTagsAndTimestamp env resource scope dp.tobasicDataPoint with
    | error err =>
      exact ⟨[], some err, fun b h => by
        rw [enqueueHistogram, hinit]
        rfl, by simp⟩
    | ok v =>
      have hv := initMetricTagsAndTimestamp_eq_ok env resource scope _ v hinit
      subst hv
      have hbase : ∃ d ∈ dp :: rest, builtFrom env resource scope m d.tobasicDataPoint
          ⟨MeasurementPrometheus, initTags env resource scope dp.tobasicDataPoint,
            histogramBaseFields m dp (initFields env dp.tobasicDataPoint),
            Timestamp.AsTime dp.Timestamp, .Histogram⟩ :=
        ⟨dp, List.mem_cons_self dp rest, builtFrom_histogramBase env resource scope m dp⟩
      by_cases hcond : dp.BucketCounts.length > 0 ∧
          dp.BucketCounts.length ≠ dp.ExplicitBounds.length ∧
          dp.BucketCounts.length ≠ dp.ExplicitBounds.length + 1
      · refine ⟨[⟨MeasurementPrometheus, initTags env resource scope dp.tobasicDataPoint,
            histogramBaseFields m dp (initFields env dp.tobasicDataPoint),
            Timestamp.AsTime dp.Timestamp, .Histogram⟩],
          some (.invalidBucketCounts dp.BucketCounts.length dp.ExplicitBounds.length),
          fun b h => ?_, ?_⟩
        · rw [enqueueHistogram, hinit]
          simp only [EnqueuePoint, enqueuePoints, if_pos hcond]
        · intro p hp
          rw [List.mem_singleton] at hp
          subst hp
          exact hbase
      · refine ⟨⟨MeasurementPrometheus, initTags env resource scope dp.tobasicDataPoint,
            histogramBaseFields m dp (initFields env dp.tobasicDataPoint),
            Timestamp.AsTime dp.Timestamp, .Histogram⟩ ::
          ((List.range dp.BucketCounts.length).map
            (histogramBucketPoint env m (initTags env resource scope dp.tobasicDataPoint)
              (initFields env dp.tobasicDataPoint) (Timestamp.AsTime dp.Timestamp)
              dp.BucketCounts dp.ExplicitBounds) ++ Cr), Er, fun b h => ?_, ?_⟩
        · rw [enqueueHistogram, hinit]
          simp only [EnqueuePoint, enqueuePoints, if_neg hcond, enqueueHistogramBuckets_repr]
          cases hb : b h _ with
          | some err => simp
          | none =>
            simp only []
            rw [enqueuePoints_append]
            rcases enqueuePoints "histogram" b _ none _ with ⟨_ | e, h'⟩ <;> simp [hr]
        · intro p hp
          rcases List.mem_cons.1 hp with rfl | hp
          · exact hbase
          · rcases List.mem_append.1 hp with hp | hp
            · obtain ⟨i, -, rfl⟩ := List.mem_map.1 hp
              exact ⟨dp, List.mem_cons_self dp rest,
                builtFrom_histogramBucket env resource scope m dp i⟩
            · exact hm' p hp

theorem enqueueSummary_repr (env : Env) (resource : Resource)
    (scope : InstrumentationScope) (m : String) (l : List SummaryDataPoint) :
    ∃ (C : List Point) (E : Option Error),
      (∀ b h, enqueueSummary env resource scope m l b h =
        enqueuePoints "summary" b C E h) ∧
      (∀ p ∈ C, ∃ dp ∈ l, builtFrom env resource scope m dp.tobasicDataPoint p) := by
  induction l with
  | nil => exact ⟨[], none, fun _ _ => rfl, by simp⟩
  | cons dp rest ih =>
    obtain ⟨Cr, Er, hr, hm⟩ := ih
    have hm' : ∀ p ∈ Cr, ∃ d ∈ dp :: rest,
        builtFrom env resource scope m d.tobasicDataPoint p := by
      intro p hp
      obtain ⟨d, hd, hb⟩ := hm p hp
      exact ⟨d, List.mem_cons_of_mem dp hd, hb⟩
    cases hinit : initMetricTagsAndTimestamp env resource scope dp.tobasicDataPoint with
    | error err =>
      exact ⟨[], some err, fun b h => by
        rw [enqueueSummary, hinit]
        rfl, by simp⟩
    | ok v =>
      have hv := initMetricTagsAndTimestamp_eq_ok env resource scope _ v hinit
      subst hv
      refine ⟨⟨MeasurementPrometheus, initTags env resource scope dp.tobasicDataPoint,
          summaryBaseFields m dp (initFields env dp.tobasicDataPoint),
          Timestamp.AsTime dp.Timestamp, .Summary⟩ ::
        (dp.QuantileValues.map
          (summaryQuantilePoint env m (initTags env resource scope dp.tobasicDataPoint)
            (initFields env dp.tobasicDataPoint) (Timestamp.AsTime dp.Timestamp)) ++ Cr),
        Er, fun b h => ?_, ?_⟩
      · rw [enqueueSummary, hinit]
        simp only [EnqueuePoint, enqueuePoints, enqueueSummaryQuantiles_repr]
        cases hb : b h _ with
        | some err => simp
        | none =>
          simp only []
          rw [enqueuePoints_append]
          rcases enqueuePoints "summary" b _ none _ with ⟨_ | e, h'⟩ <;> simp [hr]
      · intro p hp
        rcases List.mem_cons.1 hp with rfl | hp
        · exact ⟨dp, List.mem_cons_self dp rest, builtFrom_summaryBase env resource scope m dp⟩
        · rcases List.mem_append.1 hp with hp | hp
          · obtain ⟨q, -, rfl⟩ := List.mem_map.1 hp
            exact ⟨dp, List.mem_cons_self dp rest,
              builtFrom_summaryQuantile env resource scope m dp q⟩
          · exact hm' p hp

theorem enqueueMetric_repr (env : Env) (resource : Resource)
    (scope : InstrumentationScope) (metric : Metric) :
    ∃ (what : String) (C : List Point) (E : Option Error),
      (∀ b h, enqueueMetric env resource scope metric b h = enqueuePoints what b C E h) ∧
      (∀ p ∈ C, ∃ dp ∈ metric.Data.dataPoints,
        builtFrom env resource scope metric.Name dp p) := by
  obtain ⟨name, data⟩ := metric
  have hnum : ∀ (kind : InfluxMetricValueType) (what : String) (l : List NumberDataPoint),
      ∃ (C : List Point) (E : Option Error),
        (∀ b h, enqueueNumberDataPoints env resource scope name kind what l b h =
          enqueuePoints what b C E h) ∧
        (∀ p ∈ C, ∃ dp ∈ l.map (fun dp => dp.tobasicDataPoint),
          builtFrom env resource scope name dp p) := by
    intro kind what l
    obtain ⟨C, E, hC, hm⟩ := enqueueNumberDataPoints_repr env resource scope name l
    refine ⟨C.map (fun p => { p with vType := kind }), E, fun b h => hC kind what b h, ?_⟩
    intro p hp
    obtain ⟨p0, hp0, rfl⟩ := List.mem_map.1 hp
    obtain ⟨dp, hdp, hb⟩ := hm p0 hp0
    exact ⟨dp.tobasicDataPoint, List.mem_map.2 ⟨dp, hdp, rfl⟩,
      builtFrom_kind env resource scope name _ p0 kind hb⟩
  cases data with
  | Empty => exact ⟨"", [], some (.unknownMetricType .Empty), fun _ _ => rfl, by simp⟩
  | ExponentialHistogram =>
    exact ⟨"", [], some (.unknownMetricType .ExponentialHistogram), fun _ _ => rfl, by simp⟩
  | Gauge l =>
    obtain ⟨C, E, hC, hm⟩ := hnum .Gauge "gauge" l
    exact ⟨"gauge", C, E, fun b h => by
      simp only [enqueueMetric, enqueueGauge_eq, hC], hm⟩
  | Sum mono l =>
    cases mono with
    | true =>
      obtain ⟨C, E, hC, hm⟩ := hnum .Sum "sum" l
      exact ⟨"sum", C, E, fun b h => by
        simp only [enqueueMetric, enqueueSum_eq, hC, if_true], hm⟩
    | false =>
      obtain ⟨C, E, hC, hm⟩ := hnum .Gauge "sum (as gauge)" l
      exact ⟨"sum (as gauge)", C, E, fun b h => by
        simp [enqueueMetric, enqueueGaugeFromSum_eq, hC], hm⟩
  | Histogram l =>
    obtain ⟨C, E, hC, hm⟩ := enqueueHistogram_repr env resource scope name l
    refine ⟨"histogram", C, E, fun b h => by simp only [enqueueMetric, hC], ?_⟩
    intro p hp
    obtain ⟨dp, hdp, hb⟩ := hm p hp
    exact ⟨dp.tobasicDataPoint, List.mem_map.2 ⟨dp, hdp, rfl⟩, hb⟩
  | Summary l =>
    obtain ⟨C, E, hC, hm⟩ := enqueueSummary_repr env resource scope name l
    refine ⟨"summary", C, E, fun b h => by simp only [enqueueMetric, hC], ?_⟩
    intro p hp
    obtain ⟨dp, hdp, hb⟩ := hm p hp
    exact ⟨dp.tobasicDataPoint, List.mem_map.2 ⟨dp, hdp, rfl⟩, hb⟩

theorem enqueueMetric_handed_builtFrom (env : Env) (resource : Resource)
    (scope : InstrumentationScope) (metric : Metric) (batch : Sink) (handed : List Point) :
    ∃ new, (enqueueMetric env resource scope metric batch handed).2 = handed ++ new ∧
      ∀ p ∈ new, ∃ dp ∈ metric.Data.dataPoints,
        builtFrom env resource scope metric.Name dp p := by
  obtain ⟨what, C, E, hC, hm⟩ := enqueueMetric_repr env resource scope metric
  obtain ⟨n, -, hlog, -⟩ := enqueuePoints_prefix what batch C E handed
  exact ⟨C.take n, by rw [hC, hlog], fun p hp => hm p (List.mem_of_mem_take hp)⟩

theorem enqueueNumberDataPoints_cons_single (env : Env) (resource : Resource)
    (scope : InstrumentationScope) (m : String) (kind : InfluxMetricValueType)
    (what : String) (dp : NumberDataPoint) (rest : List NumberDataPoint) (batch : Sink)
    (handed : List Point) :
    enqueueNumberDataPoints env resource scope m kind what (dp :: rest) batch handed =
      (match enqueueNumberDataPoints env resource scope m kind what [dp] batch handed with
      | (none, handed) =>
        enqueueNumberDataPoints env resource scope m kind what rest batch handed
      | (some err, handed) => (some err, handed)) := by
  simp only [enqueueNumberDataPoints]
  cases initMetricTagsAndTimestamp env resource scope dp.tobasicDataPoint with
  | error err => rfl
  | ok v =>
    obtain ⟨tags, fields, ts⟩ := v
    cases dp.Value with
    | Empty => rfl
    | Double x =>
      simp only [EnqueuePoint]
      cases batch handed _ <;> rfl
    | Int x =>
      simp only [EnqueuePoint]
      cases batch handed _ <;> rfl

theorem enqueueHistogram_cons_single (env : Env) (resource : Resource)
    (scope : InstrumentationScope) (m : String) (dp : HistogramDataPoint)
    (rest : List HistogramDataPoint) (batch : Sink) (handed : List Point) :
    enqueueHistogram env resource scope m (dp :: rest) batch handed =
      (match enqueueHistogram env resource scope m [dp] batch handed with
      | (none, handed) => enqueueHistogram env resource scope m rest batch handed
      | (some err, handed) => (some err, handed)) := by
  simp only [enqueueHistogram]
  cases initMetricTagsAndTimestamp env resource scope dp.tobasicDataPoint with
  | error err => rfl
  | ok v =>
    obtain ⟨tags, fields, ts⟩ := v
    simp only [EnqueuePoint]
    cases batch handed _ with
    | some err => rfl
    | none =>
      simp only []
      split_ifs
      · rfl
      · rcases enqueueHistogramBuckets env m tags fields ts dp.BucketCounts
          dp.ExplicitBounds batch (List.range dp.BucketCounts.length) _ with ⟨_ | e, h1⟩ <;>
          rfl

theorem enqueueSummary_cons_single (env : Env) (resource : Resource)
    (scope : InstrumentationScope) (m : String) (dp : SummaryDataPoint)
    (rest : List SummaryDataPoint) (batch : Sink) (handed : List Point) :
    enqueueSummary env resource scope m (dp :: rest) batch handed =
      (match enqueueSummary env resource scope m [dp] batch handed with
      | (none, handed) => enqueueSummary env resource scope m rest batch handed
      | (some err, handed) => (some err, handed)) := by
  simp only [enqueueSummary]
  cases initMetricTagsAndTimestamp env resource scope dp.tobasicDataPoint with
  | error err => rfl
  | ok v =>
    obtain ⟨tags, fields, ts⟩ := v
    simp only [EnqueuePoint]
    cases batch handed _ with
    | some err => rfl
    | none =>
      simp only []
      rcases enqueueSummaryQuantiles env m tags fields ts batch dp.QuantileValues _
        with ⟨_ | e, h1⟩ <;> rfl

/-! ## The gauge point -/

theorem initFields_get? (env : Env) (dp : basicDataPoint) (k : String) :
    (initFields env dp).get? k =
      if env.AttributeStartTimeUnixNano = k ∧ dp.StartTimestamp ≠ 0 then
        some (.int64 (toInt64 dp.StartTimestamp))
      else none := by
  unfold initFields
  by_cases h0 : dp.StartTimestamp = 0
  · simp [h0, GoMap.get?]
  · simp [h0, GoMap.get?_set, GoMap.get?]

theorem enqueueGauge_log (env : Env) (resource : Resource) (scope : InstrumentationScope)
    (m : String) (l : List NumberDataPoint) (batch : Sink) (handed : List Point) :
    ∃ suffix, (enqueueGauge env resource scope m l batch handed).2 = handed ++ suffix := by
  obtain ⟨C, E, hC, -⟩ := enqueueNumberDataPoints_repr env resource scope m l
  obtain ⟨n, -, hlog, -⟩ := enqueuePoints_prefix "gauge" batch
    (C.map (fun p => { p with vType := InfluxMetricValueType.Gauge })) E handed
  exact ⟨_, by rw [enqueueGauge_eq, hC, hlog]⟩

theorem enqueueGauge_handed_at (env : Env) (resource : Resource)
    (scope : InstrumentationScope) (m : String) (dp : NumberDataPoint)
    (rest : List NumberDataPoint) (batch : Sink) (handed : List Point) (v : FieldValue)
    (hts : (Timestamp.AsTime dp.Timestamp).IsZero = false)
    (hv : (∃ x, dp.Value = .Double x ∧ v = .float64 x) ∨
      (∃ x, dp.Value = .Int x ∧ v = .int64 x)) :
    (enqueueGauge env resource scope m (dp :: rest) batch handed).2[handed.length]? =
      some ⟨MeasurementPrometheus, initTags env resource scope dp.tobasicDataPoint,
        (initFields env dp.tobasicDataPoint).set m v, Timestamp.AsTime dp.Timestamp,
        .Gauge⟩ := by
  have key : ∀ p : Point,
      (match EnqueuePoint batch handed p with
        | (some err, handed) => (some (Error.failedToWritePoint "gauge" err), handed)
        | (none, handed) => enqueueGauge env resource scope m rest batch handed).2[
          handed.length]? = some p := by
    intro p
    simp only [EnqueuePoint]
    cases hb : batch handed p with
    | some err => simp
    | none =>
      obtain ⟨suffix, hs⟩ := enqueueGauge_log env resource scope m rest batch (handed ++ [p])
      simp only []
      rw [hs, List.append_assoc, List.getElem?_append_right (Nat.le_refl _), Nat.sub_self]
      simp
  rw [enqueueGauge, initMetricTagsAndTimestamp_ok _ _ _ _ hts]
  rcases hv with ⟨x, hx, rfl⟩ | ⟨x, hx, rfl⟩
  · simp only [hx]
    exact key _
  · simp only [hx]
    exact key _

/-- C11 (as amended): for a gauge data point that passes the timestamp check and has a
present value `v` (kept as `int64` for an `Int` value and as `float64` for a `Double`
value), `enqueueGauge` hands one point for it, whatever the sink: the point has value-kind
Gauge, the tags returned by `initMetricTagsAndTimestamp`, and a field set that holds `v`
under the measurement name and, under any other key, only the start-timestamp field,
which is there if and only if the start timestamp is non-zero and then holds
`int64(StartTimestamp)`. When the measurement name is the start-timestamp key itself, the
value takes the place of the start timestamp. -/
theorem enqueueGauge_value_point (env : Env) (resource : Resource)
    (scope : InstrumentationScope) (m : String) (dp : NumberDataPoint)
    (rest : List NumberDataPoint) (batch : Sink) (handed : List Point) (v : FieldValue)
    (hts : (Timestamp.AsTime dp.Timestamp).IsZero = false)
    (hv : (∃ x, dp.Value = .Double x ∧ v = .float64 x) ∨
      (∃ x, dp.Value = .Int x ∧ v = .int64 x)) :
    ∃ tags fields ts p,
      initMetricTagsAndTimestamp env resource scope dp.tobasicDataPoint =
        .ok (tags, fields, ts) ∧
      (enqueueGauge env resource scope m (dp :: rest) batch handed).2[handed.length]? =
        some p ∧
      enqueueGauge env resource scope m (dp :: rest) acceptAll handed =
        enqueueGauge env resource scope m rest acceptAll (handed ++ [p]) ∧
      p.vType = .Gauge ∧
      p.tags = tags ∧
      ∀ k, p.fields.get? k =
        if m = k then some v
        else if env.AttributeStartTimeUnixNano = k ∧ dp.StartTimestamp ≠ 0 then
          some (.int64 (toInt64 dp.StartTimestamp))
        else none := by
  refine ⟨_, _, _, _, initMetricTagsAndTimestamp_ok env resource scope _ hts,
    enqueueGauge_handed_at env resource scope m dp rest batch handed v hts hv, ?_, rfl, rfl, ?_⟩
  · rcases hv with ⟨x, hx, rfl⟩ | ⟨x, hx, rfl⟩
    · exact enqueueGauge_cons_acceptAll_double env resource scope m dp rest handed x hts hx
    · exact enqueueGauge_cons_acceptAll_int env resource scope m dp rest handed x hts hx
  · intro k
    simp only [GoMap.get?_set, initFields_get?]

/-- C11, witness: the amended statement at the spec's example, the gauge `cpu_usage` with
value 0.75, attribute `host = a` and no start timestamp; the fields of the point are
exactly `cpu_usage = 0.75` and its tags `host = a`. -/
theorem enqueueGauge_value_point_witness :
    (∃ tags fields ts p,
      initMetricTagsAndTimestamp sampleEnv sampleResource sampleScope
        sampleGaugePoint.tobasicDataPoint = .ok (tags, fields, ts) ∧
      (enqueueGauge sampleEnv sampleResource sampleScope "cpu_usage" [sampleGaugePoint]
        acceptAll []).2[([] : List Point).length]? = some p ∧
      enqueueGauge sampleEnv sampleResource sampleScope "cpu_usage" [sampleGaugePoint]
          acceptAll [] =
        enqueueGauge sampleEnv sampleResource sampleScope "cpu_usage" [] acceptAll
          ([] ++ [p]) ∧
      p.vType = .Gauge ∧
      p.tags = tags ∧
      ∀ k, p.fields.get? k =
        if "cpu_usage" = k then some (.float64 ⟨0x3FE8000000000000⟩)
        else if sampleEnv.AttributeStartTimeUnixNano = k ∧
            sampleGaugePoint.StartTimestamp ≠ 0 then
          some (.int64 (toInt64 sampleGaugePoint.StartTimestamp))
        else none) ∧
    enqueueGauge sampleEnv sampleResource sampleScope "cpu_usage" [sampleGaugePoint]
        acceptAll [] =
      (none, [⟨"prometheus", [("host", "a")],
        [("cpu_usage", .float64 ⟨0x3FE8000000000000⟩)], ⟨63835596800, 0⟩, .Gauge⟩]) :=
  ⟨enqueueGauge_value_point sampleEnv sampleResource sampleScope "cpu_usage" sampleGaugePoint []
    acceptAll [] (.float64 ⟨0x3FE8000000000000⟩) (by decide)
    (Or.inl ⟨⟨0x3FE8000000000000⟩, rfl, rfl⟩), by decide⟩

/-- C11, counterexample: for a gauge named like the start-timestamp key
(`start_time_unix_nano` in the sample environment), with value 0.75 and a non-zero start
timestamp, the only field of the point is `start_time_unix_nano = 0.75`: the
start-timestamp field does not hold the start timestamp. Under the name `cpu_usage` the
same data point yields both fields. -/
theorem enqueueGauge_name_collides_with_start_key :
    sampleEnv.AttributeStartTimeUnixNano = "start_time_unix_nano" ∧
    (Timestamp.AsTime sampleStartedGaugePoint.Timestamp).IsZero = false ∧
    sampleStartedGaugePoint.StartTimestamp = 1699999999000000000 ∧
    (enqueueGauge sampleEnv sampleResource sampleScope "start_time_unix_nano"
        [sampleStartedGaugePoint] acceptAll []).2.map (fun p => p.fields) =
      [[("start_time_unix_nano", .float64 ⟨0x3FE8000000000000⟩)]] ∧
    (enqueueGauge sampleEnv sampleResource sampleScope "cpu_usage"
        [sampleStartedGaugePoint] acceptAll []).2.map (fun p => p.fields) =
      [[("start_time_unix_nano", .int64 1699999999000000000),
        ("cpu_usage", .float64 ⟨0x3FE8000000000000⟩)]] := by
  decide

/-! ## Gauge, non-monotonic sum and monotonic sum -/

theorem enqueuePoints_what (what what' : String) (batch : Sink) (C : List Point)
    (E : Option Error) (h : List Point) :
    (enqueuePoints what batch C E h).2 = (enqueuePoints what' batch C E h).2 ∧
    ((enqueuePoints what batch C E h).1 = none ↔
      (enqueuePoints what' batch C E h).1 = none) := by
  induction C generalizing h with
  | nil => simp [enqueuePoints]
  | cons c cs ih =>
    simp only [enqueuePoints, EnqueuePoint]
    cases hb : batch h c with
    | some err => simp
    | none => exact ih _

theorem enqueuePoints_kind (what what' : String) (batch : Sink) (C : List Point)
    (E : Option Error) (handed : List Point)
    (hkind : ∀ (h : List Point) (p : Point),
      batch (handed ++ h.map (fun q => { q with vType := InfluxMetricValueType.Sum }))
          { p with vType := InfluxMetricValueType.Sum } =
        batch (handed ++ h) p)
    (hh : List Point) :
    ∃ n,
      (enqueuePoints what batch
          (C.map (fun q => { q with vType := InfluxMetricValueType.Gauge })) E
          (handed ++ hh)).2 =
        handed ++ hh ++
          (C.map (fun q => { q with vType := InfluxMetricValueType.Gauge })).take n ∧
      (enqueuePoints what' batch
          (C.map (fun q => { q with vType := InfluxMetricValueType.Sum })) E
          (handed ++ hh.map (fun q => { q with vType := InfluxMetricValueType.Sum }))).2 =
        handed ++ hh.map (fun q => { q with vType := InfluxMetricValueType.Sum }) ++
          (C.map (fun q => { q with vType := InfluxMetricValueType.Sum })).take n ∧
      ((enqueuePoints what batch
          (C.map (fun q => { q with vType := InfluxMetricValueType.Gauge })) E
          (handed ++ hh)).1 = none ↔
        (enqueuePoints what' batch
          (C.map (fun q => { q with vType := InfluxMetricValueType.Sum })) E
          (handed ++ hh.map (fun q => { q with vType := InfluxMetricValueType.Sum }))).1 =
            none) := by
  induction C generalizing hh with
  | nil => exact ⟨0, by simp [enqueuePoints]⟩
  | cons c cs ih =>
    have hdec := hkind hh { c with vType := InfluxMetricValueType.Gauge }
    simp only [List.map_cons, enqueuePoints, EnqueuePoint]
    rw [hdec]
    cases hb : batch (handed ++ hh) { c with vType := InfluxMetricValueType.Gauge } with
    | some err => exact ⟨1, by simp⟩
    | none =>
      obtain ⟨n, h1, h2, h3⟩ := ih (hh ++ [{ c with vType := InfluxMetricValueType.Gauge }])
      simp only [List.map_append, List.map_cons, List.map_nil, ← List.append_assoc] at h1 h2 h3
      refine ⟨n + 1, ?_, ?_, ?_⟩
      · simp only []
        rw [h1]
        simp
      · simp only []
        rw [h2]
        simp
      · simpa using h3

/-- C12 (as amended): for every list of number data points, resource, scope, measurement
name and sink, the points `enqueueMetric` hands to the sink for a non-monotonic Sum are,
point for point, those it hands for a Gauge with the same data points, each of value-kind
Gauge, and the two return an error on the same inputs. For a monotonic Sum the points are
those of the Gauge with every value-kind replaced by Sum, and it fails on the same inputs,
when the verdicts of the sink do not depend on the value-kind of the points. -/
theorem enqueueMetric_sum_as_gauge (env : Env) (resource : Resource)
    (scope : InstrumentationScope) (name : String) (dps : List NumberDataPoint)
    (batch : Sink) (handed : List Point) :
    (enqueueMetric env resource scope ⟨name, .Sum false dps⟩ batch handed).2 =
      (enqueueMetric env resource scope ⟨name, .Gauge dps⟩ batch handed).2 ∧
    ((enqueueMetric env resource scope ⟨name, .Sum false dps⟩ batch handed).1 = none ↔
      (enqueueMetric env resource scope ⟨name, .Gauge dps⟩ batch handed).1 = none) ∧
    ∃ new,
      (enqueueMetric env resource scope ⟨name, .Gauge dps⟩ batch handed).2 = handed ++ new ∧
      (∀ p ∈ new, p.vType = .Gauge) ∧
      ((∀ (h : List Point) (p : Point),
          batch (handed ++ h.map (fun q => { q with vType := InfluxMetricValueType.Sum }))
              { p with vType := InfluxMetricValueType.Sum } =
            batch (handed ++ h) p) →
        (enqueueMetric env resource scope ⟨name, .Sum true dps⟩ batch handed).2 =
          handed ++ new.map (fun q => { q with vType := InfluxMetricValueType.Sum }) ∧
        ((enqueueMetric env resource scope ⟨name, .Sum true dps⟩ batch handed).1 = none ↔
          (enqueueMetric env resource scope ⟨name, .Gauge dps⟩ batch handed).1 = none)) := by
  obtain ⟨C, E, hC, -⟩ := enqueueNumberDataPoints_repr env resource scope name dps
  have hG : enqueueMetric env resource scope ⟨name, .Gauge dps⟩ batch handed =
      enqueuePoints "gauge" batch
        (C.map (fun q => { q with vType := InfluxMetricValueType.Gauge })) E handed := by
    simp only [enqueueMetric, enqueueGauge_eq, hC]
  have hN : enqueueMetric env resource scope ⟨name, .Sum false dps⟩ batch handed =
      enqueuePoints "sum (as gauge)" batch
        (C.map (fun q => { q with vType := InfluxMetricValueType.Gauge })) E handed := by
    simp [enqueueMetric, enqueueGaugeFromSum_eq, hC]
  have hM : enqueueMetric env resource scope ⟨name, .Sum true dps⟩ batch handed =
      enqueuePoints "sum" batch
        (C.map (fun q => { q with vType := InfluxMetricValueType.Sum })) E handed := by
    simp [enqueueMetric, enqueueSum_eq, hC]
  obtain ⟨hw2, hw1⟩ := enqueuePoints_what "sum (as gauge)" "gauge" batch
    (C.map (fun q => { q with vType := InfluxMetricValueType.Gauge })) E handed
  obtain ⟨n, -, hlog, -⟩ := enqueuePoints_prefix "gauge" batch
    (C.map (fun q => { q with vType := InfluxMetricValueType.Gauge })) E handed
  rw [hG, hN, hM]
  refine ⟨hw2, hw1, _, hlog, ?_, ?_⟩
  · intro p hp
    obtain ⟨q, -, rfl⟩ := List.mem_map.1 (List.mem_of_mem_take hp)
    rfl
  · intro hkind
    obtain ⟨n', h1, h2, h3⟩ := enqueuePoints_kind "gauge" "sum" batch C E handed hkind []
    simp only [List.map_nil, List.append_nil] at h1 h2 h3
    have htake : (C.map (fun q => { q with vType := InfluxMetricValueType.Gauge })).take n =
        (C.map (fun q => { q with vType := InfluxMetricValueType.Gauge })).take n' :=
      List.append_cancel_left (hlog.symm.trans h1)
    refine ⟨?_, h3.symm⟩
    rw [h2, htake, ← List.map_take, ← List.map_take, List.map_map]
    rfl

/-- C12, witness: the amended statement at a Gauge, a non-monotonic Sum and a monotonic
Sum of two sample data points with the sink that accepts every point, whose verdicts do
not depend on the value-kind. -/
theorem enqueueMetric_sum_as_gauge_witness :
    (enqueueMetric sampleEnv sampleResource sampleScope
        ⟨"cpu_usage", .Sum true [sampleGaugePoint, sampleIntGaugePoint]⟩ acceptAll []).2 =
      (enqueueMetric sampleEnv sampleResource sampleScope
        ⟨"cpu_usage", .Gauge [sampleGaugePoint, sampleIntGaugePoint]⟩ acceptAll []).2.map
          (fun q => { q with vType := InfluxMetricValueType.Sum }) ∧
    (enqueueMetric sampleEnv sampleResource sampleScope
        ⟨"cpu_usage", .Sum false [sampleGaugePoint, sampleIntGaugePoint]⟩ acceptAll []).2 =
      (enqueueMetric sampleEnv sampleResource sampleScope
        ⟨"cpu_usage", .Gauge [sampleGaugePoint, sampleIntGaugePoint]⟩ acceptAll []).2 := by
  obtain ⟨h1, -, new, h2, -, h3⟩ :=
    enqueueMetric_sum_as_gauge sampleEnv sampleResource sampleScope "cpu_usage"
      [sampleGaugePoint, sampleIntGaugePoint] acceptAll []
  refine ⟨?_, h1⟩
  rw [(h3 (fun _ _ => rfl)).1, h2]
  rfl

/-- C12, counterexample: with a sink that rejects the points of value-kind Sum, the Gauge
of two sample data points succeeds and hands two points, while the monotonic Sum of the
same data points fails and hands one point. -/
theorem enqueueMetric_monotonic_sum_differs :
    (enqueueMetric sampleEnv sampleResource sampleScope
        ⟨"cpu_usage", .Gauge [sampleGaugePoint, sampleIntGaugePoint]⟩
        sampleSumRejectingSink []).1 = none ∧
    (enqueueMetric sampleEnv sampleResource sampleScope
        ⟨"cpu_usage", .Gauge [sampleGaugePoint, sampleIntGaugePoint]⟩
        sampleSumRejectingSink []).2.length = 2 ∧
    (enqueueMetric sampleEnv sampleResource sampleScope
        ⟨"cpu_usage", .Sum true [sampleGaugePoint, sampleIntGaugePoint]⟩
        sampleSumRejectingSink []).1 =
      some (.failedToWritePoint "sum" "value-kind Sum is not accepted") ∧
    (enqueueMetric sampleEnv sampleResource sampleScope
        ⟨"cpu_usage", .Sum true [sampleGaugePoint, sampleIntGaugePoint]⟩
        sampleSumRejectingSink []).2.length = 1 := by
  decide

/-! ## The timestamp check and the dispatch -/

/-- C13, the code at a data point whose timestamp is zero: `AsTime` turns the zero
`Timestamp` into January 1, 1970, which is not the zero `time.Time`, so `IsZero` is false,
`initMetricTagsAndTimestamp` returns tags and fields instead of the missing-timestamp
error, and `enqueueGauge` hands a point dated January 1, 1970 to the sink and returns no
error. -/
theorem initMetricTagsAndTimestamp_accepts_zero_timestamp :
    sampleUnsetTimestampGaugePoint.Timestamp = 0 ∧
    Timestamp.AsTime sampleUnsetTimestampGaugePoint.Timestamp = ⟨62135596800, 0⟩ ∧
    (Timestamp.AsTime sampleUnsetTimestampGaugePoint.Timestamp).IsZero = false ∧
    initMetricTagsAndTimestamp sampleEnv sampleResource sampleScope
        sampleUnsetTimestampGaugePoint.tobasicDataPoint =
      .ok ([("host", "a")], [], ⟨62135596800, 0⟩) ∧
    enqueueGauge sampleEnv sampleResource sampleScope "cpu_usage"
        [sampleUnsetTimestampGaugePoint] acceptAll [] =
      (none, [⟨"prometheus", [("host", "a")],
        [("cpu_usage", .float64 ⟨0x3FE8000000000000⟩)], ⟨62135596800, 0⟩, .Gauge⟩]) := by
  refine ⟨rfl, by decide, by decide, rfl, by decide⟩

/-- C14: for a metric whose type is none of Gauge, Sum, Histogram and Summary, such as
Empty or ExponentialHistogram, `enqueueMetric` returns the unknown-metric-type error and
hands no point to the sink; for a Gauge it returns the result of `enqueueGauge`, for a
monotonic Sum that of `enqueueSum`, for a non-monotonic Sum that of `enqueueGaugeFromSum`,
for a Histogram that of `enqueueHistogram` and for a Summary that of `enqueueSummary`,
each on the metric's name and data points. -/
theorem enqueueMetric_dispatch (env : Env) (resource : Resource)
    (scope : InstrumentationScope) (metric : Metric) (batch : Sink) (handed : List Point) :
    ((metric.Type ≠ .Gauge ∧ metric.Type ≠ .Sum ∧ metric.Type ≠ .Histogram ∧
        metric.Type ≠ .Summary) →
      enqueueMetric env resource scope metric batch handed =
        (some (.unknownMetricType metric.Type), handed)) ∧
    (∀ dps, metric.Data = .Gauge dps →
      enqueueMetric env resource scope metric batch handed =
        enqueueGauge env resource scope metric.Name dps batch handed) ∧
    (∀ dps, metric.Data = .Sum true dps →
      enqueueMetric env resource scope metric batch handed =
        enqueueSum env resource scope metric.Name dps batch handed) ∧
    (∀ dps, metric.Data = .Sum false dps →
      enqueueMetric env resource scope metric batch handed =
        enqueueGaugeFromSum env resource scope metric.Name dps batch handed) ∧
    (∀ dps, metric.Data = .Histogram dps →
      enqueueMetric env resource scope metric batch handed =
        enqueueHistogram env resource scope metric.Name dps batch handed) ∧
    (∀ dps, metric.Data = .Summary dps →
      enqueueMetric env resource scope metric batch handed =
        enqueueSummary env resource scope metric.Name dps batch handed) := by
  obtain ⟨name, data⟩ := metric
  refine ⟨?_, ?_, ?_, ?_, ?_, ?_⟩
  · intro h
    cases data <;> simp [Metric.Type] at h <;> rfl
  · intro dps h
    simp only [] at h
    subst h
    rfl
  · intro dps h
    simp only [] at h
    subst h
    simp [enqueueMetric]
  · intro dps h
    simp only [] at h
    subst h
    simp [enqueueMetric]
  · intro dps h
    simp only [] at h
    subst h
    rfl
  · intro dps h
    simp only [] at h
    subst h
    rfl

/-- C14, witness: the statement at an ExponentialHistogram metric. -/
theorem enqueueMetric_dispatch_witness :
    enqueueMetric sampleEnv sampleResource sampleScope ⟨"latency", .ExponentialHistogram⟩
        acceptAll [] =
      (some (.unknownMetricType (Metric.Type ⟨"latency", .ExponentialHistogram⟩)), []) :=
  (enqueueMetric_dispatch sampleEnv sampleResource sampleScope
    ⟨"latency", .ExponentialHistogram⟩ acceptAll []).1 (by decide)

/-- C15: whatever the metric and the sink, every point `enqueueMetric` hands to the sink
has at least one field. -/
theorem enqueueMetric_fields_nonempty (env : Env) (resource : Resource)
    (scope : InstrumentationScope) (metric : Metric) (batch : Sink) (handed : List Point) :
    ∃ new, (enqueueMetric env resource scope metric batch handed).2 = handed ++ new ∧
      ∀ p ∈ new, p.fields ≠ [] ∧ ∃ k v, p.fields.get? k = some v := by
  obtain ⟨new, hlog, hnew⟩ :=
    enqueueMetric_handed_builtFrom env resource scope metric batch handed
  refine ⟨new, hlog, fun p hp => ?_⟩
  obtain ⟨dp, -, -, -, -, ⟨k, v, hkv⟩, -⟩ := hnew p hp
  refine ⟨?_, k, v, hkv⟩
  intro hnil
  rw [hnil] at hkv
  simp [GoMap.get?] at hkv

/-- C17: whatever the metric name, the sink and the points handed to it before, a run of
`enqueueMetric` over the data points `dp :: rest` of a gauge, a sum (monotonic or not), a
histogram or a summary is the run over `dp` alone followed, when that run returns no
error, by the run over `rest`, and is the run over `dp` alone when that run returns an
error; the run over no data point hands nothing. So every point handed to the sink is
handed by the run over exactly one data point, the data point it is derived from, and
every point the run over `dp` alone hands to the sink (base, bucket and quantile points
alike) has the measurement name `common.MeasurementPrometheus` and the timestamp of `dp`.
A metric of another type hands nothing to the sink. -/
theorem enqueueMetric_measurement_and_timestamp (env : Env) (resource : Resource)
    (scope : InstrumentationScope) (name : String) (batch : Sink) (handed : List Point) :
    (∀ K ∈ [MetricData.Gauge, MetricData.Sum true, MetricData.Sum false],
      ∀ (dp : NumberDataPoint) (rest : List NumberDataPoint),
        (∃ new,
          (enqueueMetric env resource scope ⟨name, K [dp]⟩ batch handed).2 = handed ++ new ∧
          ∀ p ∈ new, p.measurement = MeasurementPrometheus ∧
            p.ts = Timestamp.AsTime dp.Timestamp) ∧
        enqueueMetric env resource scope ⟨name, K (dp :: rest)⟩ batch handed =
          (match enqueueMetric env resource scope ⟨name, K [dp]⟩ batch handed with
          | (none, handed) => enqueueMetric env resource scope ⟨name, K rest⟩ batch handed
          | (some err, handed) => (some err, handed)) ∧
        enqueueMetric env resource scope ⟨name, K []⟩ batch handed = (none, handed)) ∧
    (∀ (dp : HistogramDataPoint) (rest : List HistogramDataPoint),
      (∃ new,
        (enqueueMetric env resource scope ⟨name, .Histogram [dp]⟩ batch handed).2 =
          handed ++ new ∧
        ∀ p ∈ new, p.measurement = MeasurementPrometheus ∧
          p.ts = Timestamp.AsTime dp.Timestamp) ∧
      enqueueMetric env resource scope ⟨name, .Histogram (dp :: rest)⟩ batch handed =
        (match enqueueMetric env resource scope ⟨name, .Histogram [dp]⟩ batch handed with
        | (none, handed) =>
          enqueueMetric env resource scope ⟨name, .Histogram rest⟩ batch handed
        | (some err, handed) => (some err, handed)) ∧
      enqueueMetric env resource scope ⟨name, .Histogram []⟩ batch handed = (none, handed)) ∧
    (∀ (dp : SummaryDataPoint) (rest : List SummaryDataPoint),
      (∃ new,
        (enqueueMetric env resource scope ⟨name, .Summary [dp]⟩ batch handed).2 =
          handed ++ new ∧
        ∀ p ∈ new, p.measurement = MeasurementPrometheus ∧
          p.ts = Timestamp.AsTime dp.Timestamp) ∧
      enqueueMetric env resource scope ⟨name, .Summary (dp :: rest)⟩ batch handed =
        (match enqueueMetric env resource scope ⟨name, .Summary [dp]⟩ batch handed with
        | (none, handed) =>
          enqueueMetric env resource scope ⟨name, .Summary rest⟩ batch handed
        | (some err, handed) => (some err, handed)) ∧
      enqueueMetric env resource scope ⟨name, .Summary []⟩ batch handed = (none, handed)) ∧
    (enqueueMetric env resource scope ⟨name, .Empty⟩ batch handed).2 = handed ∧
    (enqueueMetric env resource scope ⟨name, .ExponentialHistogram⟩ batch handed).2 =
      handed := by
  have hsingle : ∀ (data : MetricData) (d : basicDataPoint), data.dataPoints = [d] →
      ∃ new,
        (enqueueMetric env resource scope ⟨name, data⟩ batch handed).2 = handed ++ new ∧
        ∀ p ∈ new, p.measurement = MeasurementPrometheus ∧
          p.ts = Timestamp.AsTime d.Timestamp := by
    intro data d hdata
    obtain ⟨new, hlog, hnew⟩ :=
      enqueueMetric_handed_builtFrom env resource scope ⟨name, data⟩ batch handed
    refine ⟨new, hlog, fun p hp => ?_⟩
    obtain ⟨d0, hd0, hm, hts, -⟩ := hnew p hp
    simp only [hdata, List.mem_singleton] at hd0
    subst hd0
    exact ⟨hm, hts⟩
  refine ⟨?_, ?_, ?_, rfl, rfl⟩
  · intro K hK dp rest
    simp only [List.mem_cons, List.mem_singleton, List.not_mem_nil, or_false] at hK
    rcases hK with rfl | rfl | rfl
    · refine ⟨hsingle _ dp.tobasicDataPoint rfl, ?_, rfl⟩
      simp only [enqueueMetric, enqueueGauge_eq]
      exact enqueueNumberDataPoints_cons_single env resource scope name .Gauge "gauge" dp
        rest batch handed
    · refine ⟨hsingle _ dp.tobasicDataPoint rfl, ?_, rfl⟩
      simp only [enqueueMetric, enqueueSum_eq, if_true]
      exact enqueueNumberDataPoints_cons_single env resource scope name .Sum "sum" dp
        rest batch handed
    · refine ⟨hsingle _ dp.tobasicDataPoint rfl, ?_, rfl⟩
      simp only [enqueueMetric, enqueueGaugeFromSum_eq, Bool.false_eq_true, if_false]
      exact enqueueNumberDataPoints_cons_single env resource scope name .Gauge
        "sum (as gauge)" dp rest batch handed
  · intro dp rest
    exact ⟨hsingle _ dp.tobasicDataPoint rfl,
      enqueueHistogram_cons_single env resource scope name dp rest batch handed, rfl⟩
  · intro dp rest
    exact ⟨hsingle _ dp.tobasicDataPoint rfl,
      enqueueSummary_cons_single env resource scope name dp rest batch handed, rfl⟩

/-- C17, witness: the statement for a gauge named `cpu` with the data points
`sampleGaugePoint` and, one second later, `sampleLaterGaugePoint`: the run over both is
the run over the first followed by the run over the second, and the two points handed to
the sink carry the two different timestamps, in the order of the data points. -/
theorem enqueueMetric_measurement_and_timestamp_witness :
    ((∃ new,
        (enqueueMetric sampleEnv sampleResource sampleScope ⟨"cpu", .Gauge [sampleGaugePoint]⟩
          acceptAll []).2 = [] ++ new ∧
        ∀ p ∈ new, p.measurement = MeasurementPrometheus ∧
          p.ts = Timestamp.AsTime sampleGaugePoint.Timestamp) ∧
      enqueueMetric sampleEnv sampleResource sampleScope
          ⟨"cpu", .Gauge (sampleGaugePoint :: [sampleLaterGaugePoint])⟩ acceptAll [] =
        (match enqueueMetric sampleEnv sampleResource sampleScope
            ⟨"cpu", .Gauge [sampleGaugePoint]⟩ acceptAll [] with
        | (none, handed) =>
          enqueueMetric sampleEnv sampleResource sampleScope
            ⟨"cpu", .Gauge [sampleLaterGaugePoint]⟩ acceptAll handed
        | (some err, handed) => (some err, handed)) ∧
      enqueueMetric sampleEnv sampleResource sampleScope ⟨"cpu", .Gauge []⟩ acceptAll [] =
        (none, [])) ∧
    Timestamp.AsTime sampleGaugePoint.Timestamp ≠
      Timestamp.AsTime sampleLaterGaugePoint.Timestamp ∧
    (enqueueMetric sampleEnv sampleResource sampleScope
        ⟨"cpu", .Gauge [sampleGaugePoint, sampleLaterGaugePoint]⟩ acceptAll []).2.map
          (fun p => (p.measurement, p.ts)) =
      [(MeasurementPrometheus, Timestamp.AsTime sampleGaugePoint.Timestamp),
        (MeasurementPrometheus, Timestamp.AsTime sampleLaterGaugePoint.Timestamp)] :=
  ⟨(enqueueMetric_measurement_and_timestamp sampleEnv sampleResource sampleScope "cpu"
      acceptAll []).1 MetricData.Gauge (List.mem_cons_self _ _) sampleGaugePoint
      [sampleLaterGaugePoint], by decide, by decide⟩

/-! ## Tag keys and field keys -/

/-- C16 (as amended): whatever the metric and the sink, the tag keys and the field keys of
every point `enqueueMetric` hands to the sink are disjoint, provided that no tag
`initMetricTagsAndTimestamp` builds for a data point of the metric (from an attribute, the
resource or the scope) has as its key the start-timestamp key, the metric name or the
metric name with a suffix (`_count`, `_sum`, `_min`, `_max`, `_bucket`), and that the
bound key and the quantile key are none of these keys either. -/
theorem enqueueMetric_tags_fields_disjoint (env : Env) (resource : Resource)
    (scope : InstrumentationScope) (metric : Metric) (batch : Sink) (handed : List Point)
    (htags : ∀ dp ∈ metric.Data.dataPoints, ∀ k ∈ fieldKeys env metric.Name,
      (initTags env resource scope dp).get? k = none)
    (hbound : env.MetricHistogramBoundKeyV2 ∉ fieldKeys env metric.Name)
    (hquantile : env.MetricSummaryQuantileKeyV2 ∉ fieldKeys env metric.Name) :
    ∃ new, (enqueueMetric env resource scope metric batch handed).2 = handed ++ new ∧
      ∀ p ∈ new, ∀ k, p.tags.get? k = none ∨ p.fields.get? k = none := by
  obtain ⟨new, hlog, hnew⟩ :=
    enqueueMetric_handed_builtFrom env resource scope metric batch handed
  refine ⟨new, hlog, fun p hp k => ?_⟩
  obtain ⟨dp, hdp, -, -, hT, -, hF⟩ := hnew p hp
  by_cases hf : p.fields.get? k = none
  · exact Or.inr hf
  · left
    have hk : k ∈ fieldKeys env metric.Name := hF k hf
    have hnone := htags dp hdp k hk
    rcases hT with h | ⟨v, h⟩ | ⟨v, h⟩
    · rw [h]
      exact hnone
    · have hne : ¬ env.MetricHistogramBoundKeyV2 = k := by
        intro heq
        rw [heq] at hbound
        exact hbound hk
      rw [h, GoMap.get?_set, if_neg hne]
      exact hnone
    · have hne : ¬ env.MetricSummaryQuantileKeyV2 = k := by
        intro heq
        rw [heq] at hquantile
        exact hquantile hk
      rw [h, GoMap.get?_set, if_neg hne]
      exact hnone

/-- C16, witness: the amended statement at the spec's gauge example, the gauge `cpu_usage`
with the attribute `host`. -/
theorem enqueueMetric_tags_fields_disjoint_witness :
    ∃ new,
      (enqueueMetric sampleEnv sampleResource sampleScope
        ⟨"cpu_usage", .Gauge [sampleGaugePoint]⟩ acceptAll []).2 = [] ++ new ∧
      ∀ p ∈ new, ∀ k, p.tags.get? k = none ∨ p.fields.get? k = none :=
  enqueueMetric_tags_fields_disjoint sampleEnv sampleResource sampleScope
    ⟨"cpu_usage", .Gauge [sampleGaugePoint]⟩ acceptAll [] (by decide) (by decide) (by decide)

/-- C16, counterexample: the gauge `cpu_usage` with one data point whose only attribute
has the key `cpu_usage`, which is neither the bound key nor the quantile key; the point
handed to the sink has `cpu_usage` both as a tag key and as a field key. -/
theorem enqueueMetric_tag_key_is_field_key :
    sampleEnv.MetricHistogramBoundKeyV2 ≠ "cpu_usage" ∧
    sampleEnv.MetricSummaryQuantileKeyV2 ≠ "cpu_usage" ∧
    (enqueueMetric sampleEnv sampleResource sampleScope
        ⟨"cpu_usage", .Gauge [sampleCollidingGaugePoint]⟩ acceptAll []).2.map
          (fun p => (p.tags.get? "cpu_usage", p.fields.get? "cpu_usage")) =
      [(some "a", some (.float64 ⟨0x3FE8000000000000⟩))] := by
  decide

/-! ## Errors stop the expansion -/

theorem enqueueHistogram_append_invalid (env : Env) (resource : Resource)
    (scope : InstrumentationScope) (m : String) (pre : List HistogramDataPoint)
    (dp : HistogramDataPoint) (post : List HistogramDataPoint)
    (h0 : dp.BucketCounts.length ≠ 0)
    (hE : dp.BucketCounts.length ≠ dp.ExplicitBounds.length)
    (hE1 : dp.BucketCounts.length ≠ dp.ExplicitBounds.length + 1)
    (batch : Sink) (handed : List Point) :
    enqueueHistogram env resource scope m (pre ++ dp :: post) batch handed =
      enqueueHistogram env resource scope m (pre ++ [dp]) batch handed ∧
    (enqueueHistogram env resource scope m (pre ++ [dp]) batch handed).1 ≠ none := by
  induction pre generalizing handed with
  | nil =>
    have hts := Timestamp.AsTime_IsZero dp.Timestamp
    simp only [List.nil_append]
    rw [enqueueHistogram_cons_invalid env resource scope m dp post batch handed hts h0 hE hE1,
      enqueueHistogram_cons_invalid env resource scope m dp [] batch handed hts h0 hE hE1]
    refine ⟨rfl, ?_⟩
    cases batch handed _ <;> simp
  | cons a pre ih =>
    simp only [List.cons_append]
    constructor
    · rw [enqueueHistogram]
      conv_rhs => rw [enqueueHistogram]
      simp only [fun h => (ih h).1]
    · rw [enqueueHistogram]
      split
      · simp
      · simp only [EnqueuePoint]
        split
        · simp
        · split
          · simp
          · split
            · simp
            · exact (ih _).2

/-- C18: whatever the metric and the sink, the points `enqueueMetric` hands to the sink
are a prefix of the points it hands to a sink that accepts every point; when it returns no
error, all of these were handed and no data point failed; when the sink rejects a point,
that point is the last one handed and `enqueueMetric` returns an error; and a histogram
data point with an invalid bucket cardinality makes `enqueueMetric` return an error with
the result it has when that data point is the last of the metric: the data points after
it are not expanded. -/
theorem enqueueMetric_stops_at_first_error (env : Env) (resource : Resource)
    (scope : InstrumentationScope) (metric : Metric) (batch : Sink) (handed : List Point) :
    (∃ n, (enqueueMetric env resource scope metric batch handed).2 =
      handed ++ (enqueueMetric env resource scope metric acceptAll []).2.take n) ∧
    ((enqueueMetric env resource scope metric batch handed).1 = none →
      (enqueueMetric env resource scope metric batch handed).2 =
        handed ++ (enqueueMetric env resource scope metric acceptAll []).2 ∧
      (enqueueMetric env resource scope metric acceptAll []).1 = none) ∧
    (∀ pre p post,
      (enqueueMetric env resource scope metric batch handed).2 =
        handed ++ (pre ++ p :: post) →
      batch (handed ++ pre) p ≠ none →
      post = [] ∧ (enqueueMetric env resource scope metric batch handed).1 ≠ none) ∧
    (∀ name pre dp post, metric = ⟨name, .Histogram (pre ++ dp :: post)⟩ →
      dp.BucketCounts.length ≠ 0 →
      dp.BucketCounts.length ≠ dp.ExplicitBounds.length →
      dp.BucketCounts.length ≠ dp.ExplicitBounds.length + 1 →
      enqueueMetric env resource scope metric batch handed =
        enqueueMetric env resource scope ⟨name, .Histogram (pre ++ [dp])⟩ batch handed ∧
      (enqueueMetric env resource scope metric batch handed).1 ≠ none) := by
  obtain ⟨what, C, E, hC, -⟩ := enqueueMetric_repr env resource scope metric
  obtain ⟨n, -, hlog, hnone⟩ := enqueuePoints_prefix what batch C E handed
  have hfull : enqueueMetric env resource scope metric acceptAll [] = (E, C) := by
    rw [hC, enqueuePoints_acceptAll]
    simp
  refine ⟨⟨n, by rw [hC, hfull, hlog]⟩, ?_, ?_, ?_⟩
  · intro h
    rw [hC] at h
    obtain ⟨hn, hE⟩ := hnone h
    rw [hC, hfull, hlog, hn, List.take_length]
    exact ⟨rfl, hE⟩
  · intro pre p post hl hrej
    rw [hC] at hl ⊢
    exact enqueuePoints_rejected_last what batch C E handed pre post p hl hrej
  · intro name pre dp post hmetric h0 hE hE1
    subst hmetric
    obtain ⟨h1, h2⟩ := enqueueHistogram_append_invalid env resource scope name pre dp post
      h0 hE hE1 batch handed
    simp only [enqueueMetric]
    exact ⟨h1, by rw [h1]; exact h2⟩

/-- C18, witness: the statement at a histogram of the spec's example data point followed
by a data point with an invalid bucket cardinality and a third data point, with a sink
that rejects the second point handed to it and with the sink that accepts every point. -/
theorem enqueueMetric_stops_at_first_error_witness :
    (∃ n, (enqueueMetric sampleEnv sampleResource sampleScope
        ⟨"latency", .Histogram [sampleHistogram, sampleInvalidHistogram, sampleHistogram]⟩
        sampleSecondRejectingSink []).2 =
      [] ++ (enqueueMetric sampleEnv sampleResource sampleScope
        ⟨"latency", .Histogram [sampleHistogram, sampleInvalidHistogram, sampleHistogram]⟩
        acceptAll []).2.take n) ∧
    (enqueueMetric sampleEnv sampleResource sampleScope
        ⟨"latency", .Histogram [sampleHistogram, sampleInvalidHistogram, sampleHistogram]⟩
        sampleSecondRejectingSink []).2.length = 2 ∧
    (enqueueMetric sampleEnv sampleResource sampleScope
        ⟨"latency", .Histogram [sampleHistogram, sampleInvalidHistogram, sampleHistogram]⟩
        sampleSecondRejectingSink []).1 =
      some (.failedToWritePoint "histogram" "batch is full") ∧
    (enqueueMetric sampleEnv sampleResource sampleScope
        ⟨"latency", .Histogram [sampleHistogram, sampleInvalidHistogram, sampleHistogram]⟩
        acceptAll []).2.length = 5 ∧
    (enqueueMetric sampleEnv sampleResource sampleScope
        ⟨"latency", .Histogram [sampleHistogram, sampleInvalidHistogram, sampleHistogram]⟩
        acceptAll []).1 = some (.invalidBucketCounts 4 2) :=
  ⟨(enqueueMetric_stops_at_first_error sampleEnv sampleResource sampleScope
      ⟨"latency", .Histogram [sampleHistogram, sampleInvalidHistogram, sampleHistogram]⟩
      sampleSecondRejectingSink []).1, by decide, by decide, by decide, by decide⟩

/-! ## The tags of the initializer -/

theorem attributesToTags_get? (env : Env) (attributes : Attributes) (tags : GoMap String)
    (k : String) :
    (attributesToTags env attributes tags).get? k =
      if k = "" then tags.get? k
      else match attributes.reverse.find? (fun kv => kv.1 = k) with
        | some kv => some (env.AsString kv.2)
        | none => tags.get? k := by
  induction attributes generalizing tags with
  | nil => simp [attributesToTags]
  | cons a l ih =>
    have hstep : attributesToTags env (a :: l) tags =
        attributesToTags env l
          (if a.1 = "" then tags else tags.set a.1 (env.AsString a.2)) := rfl
    rw [hstep, ih]
    by_cases hk : k = ""
    · simp only [hk, if_true]
      by_cases ha : a.1 = ""
      · simp [ha]
      · have : ¬ a.1 = "" := ha
        simp [ha, GoMap.get?_set]
    · simp only [hk, if_false, List.reverse_cons, List.find?_append]
      cases hfind : l.reverse.find? (fun kv => kv.1 = k) with
      | some kv => simp
      | none =>
        by_cases hak : a.1 = k
        · have ha : ¬ a.1 = "" := fun h => hk (hak ▸ h)
          simp [hak, ha, GoMap.get?_set]
          simp [← hak, ha, GoMap.get?_set]
        · by_cases ha : a.1 = ""
          · have hk' : ¬ "" = k := fun h => hk h.symm
            simp [ha, hk']
          · simp [hak, ha, GoMap.get?_set]

/-- C19: for a data point that passes the timestamp check, whatever its attribute keys,
`initMetricTagsAndTimestamp` returns tags (an empty attribute key causes no failure), and
these are `InstrumentationScopeToTags(scope, ResourceToTags(resource, A))`, where `A` has
no entry for the empty key and maps every other key to the string form of the value of
the attribute with that key (of the last one, should several attributes have the key),
and has no entry for a key that no attribute has. -/
theorem initMetricTagsAndTimestamp_tags (env : Env) (resource : Resource)
    (scope : InstrumentationScope) (dp : basicDataPoint)
    (hts : (Timestamp.AsTime dp.Timestamp).IsZero = false) :
    ∃ (A : GoMap String) (fields : GoMap FieldValue) (ts : Time),
      initMetricTagsAndTimestamp env resource scope dp =
        .ok (env.InstrumentationScopeToTags scope (env.ResourceToTags resource A),
          fields, ts) ∧
      ∀ k, A.get? k =
        if k = "" then none
        else match dp.Attributes.reverse.find? (fun kv => kv.1 = k) with
          | some kv => some (env.AsString kv.2)
          | none => none := by
  refine ⟨attributesToTags env dp.Attributes [], _, _,
    initMetricTagsAndTimestamp_ok env resource scope dp hts, ?_⟩
  intro k
  rw [attributesToTags_get?]
  simp [GoMap.get?]

/-- C19, witness: the statement at a data point with the attributes `host`, an attribute
with the empty key, and `region`; the tags are `host` and `region`. -/
theorem initMetricTagsAndTimestamp_tags_witness :
    (∃ (A : GoMap String) (fields : GoMap FieldValue) (ts : Time),
      initMetricTagsAndTimestamp sampleEnv sampleResource sampleScope
          sampleEmptyKeyGaugePoint.tobasicDataPoint =
        .ok (sampleEnv.InstrumentationScopeToTags sampleScope
          (sampleEnv.ResourceToTags sampleResource A), fields, ts) ∧
      ∀ k, A.get? k =
        if k = "" then none
        else match sampleEmptyKeyGaugePoint.Attributes.reverse.find?
            (fun kv => kv.1 = k) with
          | some kv => some (sampleEnv.AsString kv.2)
          | none => none) ∧
    initMetricTagsAndTimestamp sampleEnv sampleResource sampleScope
        sampleEmptyKeyGaugePoint.tobasicDataPoint =
      .ok ([("host", "a"), ("region", "eu")], [], ⟨63835596800, 0⟩) :=
  ⟨initMetricTagsAndTimestamp_tags sampleEnv sampleResource sampleScope
    sampleEmptyKeyGaugePoint.tobasicDataPoint (by decide), rfl⟩

/-! ## The tags of the bucket points -/

theorem histogramBucketPoint_tags_get? (env : Env) (m : String) (tags : GoMap String)
    (fields : GoMap FieldValue) (ts : Time) (bc : List Nat) (eb : List Float64) (i : Nat)
    (k : String) :
    (histogramBucketPoint env m tags fields ts bc eb i).tags.get? k =
      if env.MetricHistogramBoundKeyV2 = k then
        some (match eb[i]? with
          | some bound => env.FormatFloat bound
          | none => MetricHistogramInfFieldKey)
      else tags.get? k := by
  simp only [histogramBucketPoint, GoMap.clone, GoMap.get?_set]
  by_cases hi : i < eb.length
  · simp [hi, List.getElem?_eq_getElem hi]
  · simp [hi, List.getElem?_eq_none (Nat.le_of_not_lt hi)]

/-- C20 (as amended): for a histogram data point that passes the timestamp check and has
`B = 0`, `B = E` or `B = E + 1`, and every `i < B`, the tag set of the `i`-th bucket point
is the tag set of the base point, which is the one `initMetricTagsAndTimestamp` returns,
with the bound key set to the formatted `i`-th explicit bound when `i < E` and to the
`+Inf` sentinel otherwise; it agrees with the base tags on every other key, and a tag that
already uses the bound key is overwritten in the bucket point and kept in the base point.
When `B = E` the bound tag of every bucket point is the formatted explicit bound of its
index, never the sentinel constant. -/
theorem enqueueHistogram_bucket_tags (env : Env) (resource : Resource)
    (scope : InstrumentationScope) (m : String) (dp : HistogramDataPoint)
    (rest : List HistogramDataPoint) (batch : Sink) (handed : List Point)
    (hts : (Timestamp.AsTime dp.Timestamp).IsZero = false)
    (hB : dp.BucketCounts.length = 0 ∨ dp.BucketCounts.length = dp.ExplicitBounds.length ∨
      dp.BucketCounts.length = dp.ExplicitBounds.length + 1)
    (i : Nat) (hi : i < dp.BucketCounts.length) :
    ∃ tags fields ts base p,
      initMetricTagsAndTimestamp env resource scope dp.tobasicDataPoint =
        .ok (tags, fields, ts) ∧
      (enqueueHistogram env resource scope m (dp :: rest) batch handed).2[handed.length]? =
        some base ∧
      base.tags = tags ∧
      (enqueueHistogram env resource scope m (dp :: rest) acceptAll handed).2[
        handed.length + 1 + i]? = some p ∧
      (∀ q, (enqueueHistogram env resource scope m (dp :: rest) batch handed).2[
        handed.length + 1 + i]? = some q → q = p) ∧
      (∀ k, p.tags.get? k =
        if env.MetricHistogramBoundKeyV2 = k then
          some (match dp.ExplicitBounds[i]? with
            | some bound => env.FormatFloat bound
            | none => MetricHistogramInfFieldKey)
        else base.tags.get? k) ∧
      (dp.BucketCounts.length = dp.ExplicitBounds.length →
        (dp.ExplicitBounds[i]?).map env.FormatFloat =
          p.tags.get? env.MetricHistogramBoundKeyV2) := by
  obtain ⟨h1, h2⟩ :=
    enqueueHistogram_bucket_at env resource scope m dp rest batch handed hts hB i hi
  refine ⟨_, _, _, _, _, initMetricTagsAndTimestamp_ok env resource scope _ hts,
    enqueueHistogram_base_at env resource scope m dp rest batch handed hts, rfl, h1, h2,
    fun k => histogramBucketPoint_tags_get? _ _ _ _ _ _ _ _ _, ?_⟩
  intro hBE
  have hiE : i < dp.ExplicitBounds.length := hBE ▸ hi
  rw [histogramBucketPoint_tags_get?]
  simp [List.getElem?_eq_getElem hiE]

/-- C20, witness: the amended statement at a data point with two bucket counts, two
explicit bounds and an attribute under the bound key `le`; the base point keeps the
attribute value and the two bucket points carry the formatted bounds. -/
theorem enqueueHistogram_bucket_tags_witness :
    (∃ tags fields ts base p,
      initMetricTagsAndTimestamp sampleEnv sampleResource sampleScope
        sampleEqualHistogram.tobasicDataPoint = .ok (tags, fields, ts) ∧
      (enqueueHistogram sampleEnv sampleResource sampleScope "latency"
        [sampleEqualHistogram] acceptAll []).2[([] : List Point).length]? = some base ∧
      base.tags = tags ∧
      (enqueueHistogram sampleEnv sampleResource sampleScope "latency"
        [sampleEqualHistogram] acceptAll []).2[([] : List Point).length + 1 + 1]? = some p ∧
      (∀ q, (enqueueHistogram sampleEnv sampleResource sampleScope "latency"
        [sampleEqualHistogram] acceptAll []).2[([] : List Point).length + 1 + 1]? = some q →
          q = p) ∧
      (∀ k, p.tags.get? k =
        if sampleEnv.MetricHistogramBoundKeyV2 = k then
          some (match sampleEqualHistogram.ExplicitBounds[1]? with
            | some bound => sampleEnv.FormatFloat bound
            | none => MetricHistogramInfFieldKey)
        else base.tags.get? k) ∧
      (sampleEqualHistogram.BucketCounts.length = sampleEqualHistogram.ExplicitBounds.length →
        (sampleEqualHistogram.ExplicitBounds[1]?).map sampleEnv.FormatFloat =
          p.tags.get? sampleEnv.MetricHistogramBoundKeyV2)) ∧
    (enqueueHistogram sampleEnv sampleResource sampleScope "latency"
        [sampleEqualHistogram] acceptAll []).2.map (fun p => p.tags.get? "le") =
      [some "mine", some "0.1", some "0.5"] :=
  ⟨enqueueHistogram_bucket_tags sampleEnv sampleResource sampleScope "latency"
    sampleEqualHistogram [] acceptAll [] (by decide) (by decide) 1 (by decide), by decide⟩

/-- C20, counterexample: a data point with one bucket count and one explicit bound
(`B = E`), the bound being the `float64` value +Inf, whose string form is `+Inf`; the
bound tag of its bucket point is the `+Inf` sentinel. -/
theorem enqueueHistogram_equal_lengths_inf_bound :
    (Timestamp.AsTime sampleInfBoundHistogram.Timestamp).IsZero = false ∧
    sampleInfBoundHistogram.BucketCounts.length =
      sampleInfBoundHistogram.ExplicitBounds.length ∧
    sampleInfEnv.FormatFloat ⟨0x7FF0000000000000⟩ = "+Inf" ∧
    (enqueueHistogram sampleInfEnv sampleResource sampleScope "latency"
        [sampleInfBoundHistogram] acceptAll []).2.map
          (fun p => p.tags.get? sampleInfEnv.MetricHistogramBoundKeyV2) =
      [none, some MetricHistogramInfFieldKey] := by
  decide

end Otel2Influx
